import Mathlib

/-!
Verification of the scrivener-sync reconciliation core (Go sources under
`internal/sync`, `internal/scrivener`) against its natural-language
specification.  Go maps are embedded as association lists with
overwrite-on-insert semantics; times are carried as opaque RFC3339 strings;
the MD5 content fingerprint (`computeHash`, `Document.ContentHash`) is
abstracted as a parameter `hash : String → String`, since no claim depends
on the digest algorithm itself.
-/

/-- Lookup in an association list (Go `m[k]` with `ok` as `isSome`). -/
def lookupA {α : Type} : List (String × α) → String → Option α
  | [], _ => none
  | p :: rest, k => if p.1 == k then some p.2 else lookupA rest k

/-- Erase a key (Go `delete(m, k)`). -/
def eraseA {α : Type} : List (String × α) → String → List (String × α)
  | [], _ => []
  | p :: rest, k => if p.1 == k then eraseA rest k else p :: eraseA rest k

/-- Insert/overwrite a key (Go `m[k] = v`). -/
def insertA {α : Type} (m : List (String × α)) (k : String) (v : α) : List (String × α) :=
  (k, v) :: eraseA m k

/-- `FileState` (state.go): per-file record of the last successful sync. -/
structure FileState where
  scrivUUID : String
  contentHash : String
  modifiedTime : String
  lastSynced : String
deriving DecidableEq, Repr

/-- `State` (state.go): the persisted sync state.  The unexported `filePath`
field only names the file the state is saved to; persistence is modelled
explicitly in the executor world instead. -/
structure State where
  lastSync : Option String
  files : List (String × FileState)
  scrivPath : String
  deletedFiles : List (String × FileState)
deriving DecidableEq, Repr

/-- `ConflictType` (state.go) with its five constants. -/
inductive ConflictType where
  | ConflictNone
  | ConflictMarkdownOnly
  | ConflictScrivenerOnly
  | ConflictBoth
  | ConflictNewFile
deriving DecidableEq, Repr

/-- `NewState` (state.go): a new empty state. -/
def NewState : State :=
  { lastSync := none, files := [], scrivPath := "", deletedFiles := [] }

/-- `State.GetFileState` (state.go). -/
def State.GetFileState (s : State) (mdPath : String) : Option FileState :=
  lookupA s.files mdPath

/-- `State.GetDeletedFileState` (state.go). -/
def State.GetDeletedFileState (s : State) (mdPath : String) : Option FileState :=
  lookupA s.deletedFiles mdPath

/-- `State.RecordFile` (state.go).  `modified` and `now` stand for the two
RFC3339 timestamps (`modified.Format(...)` and `time.Now().Format(...)`). -/
def State.RecordFile (s : State) (mdPath scrivUUID hash modified now : String) : State :=
  { s with
    files := insertA s.files mdPath
      { scrivUUID := scrivUUID, contentHash := hash
        modifiedTime := modified, lastSynced := now }
    deletedFiles := eraseA s.deletedFiles mdPath }

/-- `State.RemoveFile` (state.go): move the live entry (if any) to the
deleted-files map. -/
def State.RemoveFile (s : State) (mdPath : String) : State :=
  match lookupA s.files mdPath with
  | some fs =>
      { s with
        deletedFiles := insertA s.deletedFiles mdPath fs
        files := eraseA s.files mdPath }
  | none => s

/-- `State.WasPreviouslySynced` (state.go). -/
def State.WasPreviouslySynced (s : State) (mdPath : String) : Bool :=
  (lookupA s.files mdPath).isSome || (lookupA s.deletedFiles mdPath).isSome

/-- `State.DetectConflict` (state.go). The `scrivUUID` argument is accepted
and ignored, exactly as in the source. -/
def State.DetectConflict (s : State) (mdPath mdHash _scrivUUID scrivHash : String) :
    ConflictType :=
  match s.GetFileState mdPath with
  | none =>
      match s.GetDeletedFileState mdPath with
      | some _ => ConflictType.ConflictBoth
      | none => ConflictType.ConflictNewFile
  | some fs =>
      let mdChanged := fs.contentHash != mdHash
      let scrivChanged := fs.contentHash != scrivHash
      if mdChanged && scrivChanged then ConflictType.ConflictBoth
      else if mdChanged then ConflictType.ConflictMarkdownOnly
      else if scrivChanged then ConflictType.ConflictScrivenerOnly
      else ConflictType.ConflictNone

/-- `State.GetUUIDForPath` (state.go). -/
def State.GetUUIDForPath (s : State) (mdPath : String) : String :=
  match s.GetFileState mdPath with
  | some fs => fs.scrivUUID
  | none => ""

/-- `State.AllTrackedPaths` (state.go): the keys of the live map. -/
def State.AllTrackedPaths (s : State) : List String :=
  s.files.map (·.1)

/-- `State.SetScrivPath` (state.go). -/
def State.SetScrivPath (s : State) (path : String) : State :=
  { s with scrivPath := path }

/-- `State.UpdateLastSync` (state.go); `now` stands for `time.Now()`. -/
def State.UpdateLastSync (s : State) (now : String) : State :=
  { s with lastSync := some now }

/-- The invariant of claim C5: no path is live and tombstoned at once. -/
def State.PathDisjoint (s : State) : Prop :=
  ∀ p : String, lookupA s.files p = none ∨ lookupA s.deletedFiles p = none

/-- `filepath.Base`, restricted to slash-separated paths (the only shape the
sync core produces). -/
def baseName (path : String) : String :=
  match (path.splitOn "/").getLast? with
  | some s => s
  | none => path

/-- Go `strings.HasSuffix`, over character lists. -/
def strEndsWith (s suffix : String) : Bool :=
  suffix.data.isSuffixOf s.data

/-- Go `strings.HasPrefix`, over character lists. -/
def strStartsWith (s pre : String) : Bool :=
  pre.data.isPrefixOf s.data

/-- Go `strings.TrimSuffix`. -/
def trimSuffix (s suffix : String) : String :=
  if strEndsWith s suffix then s.dropRight suffix.length else s

/-- Go `filepath.Ext` on a bare file name: the suffix starting at the final
dot, or `""` when there is no dot. -/
def filepathExt (name : String) : String :=
  let parts := name.splitOn "."
  if parts.length ≤ 1 then "" else "." ++ (parts.getLast?.getD "")

/-- The per-word title casing of `titleFromFilename` (init.go): uppercase
first character, lowercase rest. -/
def titleCaseWord (word : String) : String :=
  match word.data with
  | [] => ""
  | c :: rest => String.mk (c.toUpper :: rest.map Char.toLower)

/-- `titleFromFilename` (init.go): strip the `.md` (and any further)
extension, dashes to spaces, split into fields, title-case each word. -/
def titleFromFilename (filename : String) : String :=
  let name := trimSuffix filename ".md"
  let name := trimSuffix name (filepathExt name)
  let name := name.replace "-" " "
  let words := (name.split Char.isWhitespace).filter (fun w => w ≠ "")
  String.intercalate " " (words.map titleCaseWord)

/-- One pass of the `for strings.Contains(name, "--")` loop of
`sanitizeFilename`, with explicit fuel (each pass shortens the string). -/
def collapseDashesAux : Nat → String → String
  | 0, s => s
  | Nat.succ n, s =>
      if (s.splitOn "--").length ≤ 1 then s
      else collapseDashesAux n (s.replace "--" "-")

/-- Go `strings.Trim(name, "-")`. -/
def trimDashes (s : String) : String :=
  let l := s.data.dropWhile (fun c => c = '-')
  String.mk ((l.reverse.dropWhile (fun c => c = '-')).reverse)

/-- `sanitizeFilename` (init.go): lowercase, replace separators with dashes,
drop reserved characters, collapse double dashes, trim dashes. -/
def sanitizeFilename (title : String) : String :=
  let name := title.toLower
  let name := name.replace " " "-"
  let name := name.replace "/" "-"
  let name := name.replace "\\" "-"
  let name := name.replace ":" "-"
  let name := name.replace "*" ""
  let name := name.replace "?" ""
  let name := name.replace "\"" ""
  let name := name.replace "<" ""
  let name := name.replace ">" ""
  let name := name.replace "|" ""
  let name := collapseDashesAux name.length name
  trimDashes name

/-- `scrivener.Document` (types.go): UUID, title, converted content, doc
type (`"folder"` or `"document"`), children.  The modification time is not
consulted by the reconciliation core and is omitted. -/
inductive Document : Type where
  | node (uuid title content docType : String) (children : List Document)
deriving Repr

def Document.UUID : Document → String
  | .node u _ _ _ _ => u

def Document.Title : Document → String
  | .node _ t _ _ _ => t

def Document.Content : Document → String
  | .node _ _ c _ _ => c

def Document.DocType : Document → String
  | .node _ _ _ d _ => d

def Document.Children : Document → List Document
  | .node _ _ _ _ cs => cs

/-- `Document.IsFolder` (types.go). -/
def Document.IsFolder (d : Document) : Bool :=
  d.DocType == "folder"

/-- `Reader.findFolderInDocs` (reader.go): depth-first, case-insensitive
title search for a folder. -/
def findFolderInDocs : List Document → String → Option Document
  | [], _ => none
  | Document.node u t c dt children :: rest, title =>
      if (Document.node u t c dt children).IsFolder && (t.toLower == title.toLower) then
        some (Document.node u t c dt children)
      else
        match findFolderInDocs children title with
        | some f => some f
        | none => findFolderInDocs rest title

/-- `Reader.flattenDocs` (reader.go). -/
def flattenDocs : List Document → Bool → List Document
  | [], _ => []
  | Document.node u t c dt children :: rest, includeFolders =>
      (if includeFolders || !(Document.node u t c dt children).IsFolder then
         [Document.node u t c dt children]
       else []) ++
      flattenDocs children includeFolders ++ flattenDocs rest includeFolders

/-- `Reader.GetAllDocuments` (reader.go): all non-folder documents. -/
def GetAllDocuments (binder : List Document) : List Document :=
  flattenDocs binder false

/-- `FileChange` (plan.go). -/
structure FileChange where
  markdownPath : String
  scrivUUID : String
  title : String
  content : String
deriving DecidableEq, Repr

/-- `Conflict` (plan.go). -/
structure Conflict where
  markdownPath : String
  scrivUUID : String
  title : String
  markdownContent : String
  scrivenerContent : String
deriving DecidableEq, Repr

/-- `Orphan` (plan.go); `lastSyncTime` carries the raw `LastSynced` string
(the source parses it to a `time.Time`, ignoring parse failures). -/
structure Orphan where
  path : String
  location : String
  scrivUUID : String
  title : String
  lastSyncTime : String
deriving DecidableEq, Repr

/-- `Plan` (plan.go). -/
structure Plan where
  ToCreateInScriv : List FileChange
  ToCreateInMarkdown : List FileChange
  ToUpdateInScriv : List FileChange
  ToUpdateInMarkdown : List FileChange
  Conflicts : List Conflict
  Orphans : List Orphan
deriving DecidableEq, Repr

/-- `NewPlan` (plan.go). -/
def NewPlan : Plan :=
  { ToCreateInScriv := [], ToCreateInMarkdown := [], ToUpdateInScriv := []
    ToUpdateInMarkdown := [], Conflicts := [], Orphans := [] }

/-- `Plan.IsEmpty` (plan.go). -/
def Plan.IsEmpty (p : Plan) : Bool :=
  p.ToCreateInScriv.isEmpty && p.ToCreateInMarkdown.isEmpty &&
  p.ToUpdateInScriv.isEmpty && p.ToUpdateInMarkdown.isEmpty &&
  p.Conflicts.isEmpty && p.Orphans.isEmpty

/-- `Plan.TotalOperations` (plan.go). -/
def Plan.TotalOperations (p : Plan) : Nat :=
  p.ToCreateInScriv.length + p.ToCreateInMarkdown.length +
  p.ToUpdateInScriv.length + p.ToUpdateInMarkdown.length +
  p.Conflicts.length + p.Orphans.length

/-- `Plan.AddCreateInScriv` (plan.go): note the Scrivener UUID is left
empty. -/
def Plan.AddCreateInScriv (p : Plan) (mdPath title content : String) : Plan :=
  { p with ToCreateInScriv := p.ToCreateInScriv ++
      [{ markdownPath := mdPath, scrivUUID := "", title := title, content := content }] }

/-- `Plan.AddCreateInMarkdown` (plan.go). -/
def Plan.AddCreateInMarkdown (p : Plan) (mdPath scrivUUID title content : String) : Plan :=
  { p with ToCreateInMarkdown := p.ToCreateInMarkdown ++
      [{ markdownPath := mdPath, scrivUUID := scrivUUID, title := title, content := content }] }

/-- `Plan.AddUpdateInScriv` (plan.go). -/
def Plan.AddUpdateInScriv (p : Plan) (mdPath scrivUUID title content : String) : Plan :=
  { p with ToUpdateInScriv := p.ToUpdateInScriv ++
      [{ markdownPath := mdPath, scrivUUID := scrivUUID, title := title, content := content }] }

/-- `Plan.AddUpdateInMarkdown` (plan.go). -/
def Plan.AddUpdateInMarkdown (p : Plan) (mdPath scrivUUID title content : String) : Plan :=
  { p with ToUpdateInMarkdown := p.ToUpdateInMarkdown ++
      [{ markdownPath := mdPath, scrivUUID := scrivUUID, title := title, content := content }] }

/-- `Plan.AddConflict` (plan.go). -/
def Plan.AddConflict (p : Plan) (mdPath scrivUUID title mdContent scrivContent : String) : Plan :=
  { p with Conflicts := p.Conflicts ++
      [{ markdownPath := mdPath, scrivUUID := scrivUUID, title := title
         markdownContent := mdContent, scrivenerContent := scrivContent }] }

/-- `Plan.AddOrphan` (plan.go). -/
def Plan.AddOrphan (p : Plan) (path location scrivUUID title lastSync : String) : Plan :=
  { p with Orphans := p.Orphans ++
      [{ path := path, location := location, scrivUUID := scrivUUID
         title := title, lastSyncTime := lastSync }] }

/-- `config.FolderMapping` (config.go). -/
structure FolderMapping where
  markdownDir : String
  scrivenerFolder : String
  syncEnabled : Bool
deriving DecidableEq, Repr

/-- The slice of `config.ProjectConfig`/`config.Options` the reconciliation
core reads. -/
structure SyncConfig where
  folderMappings : List FolderMapping
  createMissingFolders : Bool
  defaultConflictResolution : String
  defaultDeletionAction : String
deriving Repr

/-- `ProjectConfig.EnabledMappings` (config.go). -/
def EnabledMappings (cfg : SyncConfig) : List FolderMapping :=
  cfg.folderMappings.filter (·.syncEnabled)

/-- `getMarkdownFiles` (sync.go): the on-disk enumeration of `.md` files
under a directory, modelled over the local file map (path to content). -/
def getMarkdownFiles (localFiles : List (String × String)) (dir : String) : List String :=
  (localFiles.map (·.1)).filter (fun p => strStartsWith p (dir ++ "/") && strEndsWith p ".md")

/-- `fileExists` (init.go), over the local file map. -/
def fileExists (localFiles : List (String × String)) (path : String) : Bool :=
  (lookupA localFiles path).isSome

/-- `Syncer.scrivDocExists` (sync.go): a non-empty UUID borne by some
document of the project. -/
def scrivDocExists (scrivBinder : List Document) (uuid : String) : Bool :=
  if uuid == "" then false
  else (GetAllDocuments scrivBinder).any (fun d => d.UUID == uuid)

/-- The `scrivDocMap` construction of `detectChangesForMapping` (sync.go):
non-folder children keyed by lowercased title (later duplicates win, as for
a Go map). -/
def buildScrivDocMap (docs : List Document) : List (String × Document) :=
  docs.foldl (fun m doc => if doc.IsFolder then m else insertA m doc.Title.toLower doc) []

/-- The matched-document `switch` of `detectChangesForMapping` (sync.go):
classify through `DetectConflict` and route to the plan bucket. -/
def classifyMatched (hash : String → String) (st : State) (plan : Plan)
    (mdPath title mdContent : String) (doc : Document) : Plan :=
  match st.DetectConflict mdPath (hash mdContent) doc.UUID (hash doc.Content) with
  | ConflictType.ConflictNewFile =>
      plan.AddConflict mdPath doc.UUID title mdContent doc.Content
  | ConflictType.ConflictMarkdownOnly =>
      plan.AddUpdateInScriv mdPath doc.UUID title mdContent
  | ConflictType.ConflictScrivenerOnly =>
      plan.AddUpdateInMarkdown mdPath doc.UUID title doc.Content
  | ConflictType.ConflictBoth =>
      plan.AddConflict mdPath doc.UUID title mdContent doc.Content
  | ConflictType.ConflictNone => plan

/-- The per-markdown-file body of `detectChangesForMapping` (sync.go):
match against the doc map, classify through `DetectConflict`, and route to
the plan bucket; matched titles are deleted from the map. -/
def detectMdFileStep (hash : String → String) (st : State)
    (localFiles : List (String × String)) (acc : Plan × List (String × Document))
    (mdPath : String) : Plan × List (String × Document) :=
  match lookupA acc.2 ((titleFromFilename (baseName mdPath)).toLower) with
  | none =>
      if !(st.WasPreviouslySynced mdPath) then
        (acc.1.AddCreateInScriv mdPath (titleFromFilename (baseName mdPath))
           ((lookupA localFiles mdPath).getD ""), acc.2)
      else acc
  | some doc =>
      (classifyMatched hash st acc.1 mdPath (titleFromFilename (baseName mdPath))
         ((lookupA localFiles mdPath).getD "") doc,
       eraseA acc.2 ((titleFromFilename (baseName mdPath)).toLower))

/-- The trailing loop of `detectChangesForMapping` (sync.go): remaining
Scrivener docs with no matching markdown file. -/
def detectScrivLeftoverStep (st : State) (mdDir : String) (plan : Plan)
    (entry : String × Document) : Plan :=
  let doc := entry.2
  if doc.IsFolder then plan
  else
    let mdPath := mdDir ++ "/" ++ sanitizeFilename doc.Title ++ ".md"
    if !(st.WasPreviouslySynced mdPath) then
      plan.AddCreateInMarkdown mdPath doc.UUID doc.Title doc.Content
    else plan

/-- The children of the mapping's Scrivener folder, or none: the not-found
error branch of `detectChangesForMapping` is unreachable in the source
(`Reader.FindFolderByTitle` returns a nil document and a nil error when the
title is absent). -/
def scrivFolderDocs (scrivBinder : List Document) (mapping : FolderMapping) :
    List Document :=
  match findFolderInDocs scrivBinder mapping.scrivenerFolder with
  | some f => f.Children
  | none => []

/-- `Syncer.detectChangesForMapping` (sync.go).  `mdRoot ++ "/" ++ dir`
stands for `filepath.Join`; the unused `mdFileMap` of the source is
omitted.  Go's nondeterministic map iteration over the leftover docs is
refined to the association-list order. -/
def detectChangesForMapping (hash : String → String) (st : State) (mdRoot : String)
    (localFiles : List (String × String)) (scrivBinder : List Document)
    (mapping : FolderMapping) (plan : Plan) : Plan :=
  let mdDir := mdRoot ++ "/" ++ mapping.markdownDir
  let mdFiles := getMarkdownFiles localFiles mdDir
  let scrivDocMap := buildScrivDocMap (scrivFolderDocs scrivBinder mapping)
  let acc := mdFiles.foldl (detectMdFileStep hash st localFiles) (plan, scrivDocMap)
  acc.2.foldl (detectScrivLeftoverStep st mdDir) acc.1

/-- The loop body of `Syncer.detectOrphans` (sync.go): the Go locals
`mdExists`, `uuid`, `scrivExists`, `lastSync` and `title` are inlined. -/
def detectOrphanStep (localFiles : List (String × String))
    (scrivBinder : List Document) (acc : State × Plan) (mdPath : String) :
    State × Plan :=
  if fileExists localFiles mdPath &&
      !(scrivDocExists scrivBinder (acc.1.GetUUIDForPath mdPath)) then
    (acc.1, acc.2.AddOrphan mdPath "markdown" (acc.1.GetUUIDForPath mdPath)
      (titleFromFilename (baseName mdPath))
      (match acc.1.GetFileState mdPath with
       | some fs => fs.lastSynced
       | none => ""))
  else if !(fileExists localFiles mdPath) &&
      scrivDocExists scrivBinder (acc.1.GetUUIDForPath mdPath) then
    (acc.1, acc.2.AddOrphan mdPath "scrivener" (acc.1.GetUUIDForPath mdPath)
      (match acc.1.GetFileState mdPath with
       | some _ => titleFromFilename (baseName mdPath)
       | none => "")
      (match acc.1.GetFileState mdPath with
       | some fs => fs.lastSynced
       | none => ""))
  else if !(fileExists localFiles mdPath) &&
      !(scrivDocExists scrivBinder (acc.1.GetUUIDForPath mdPath)) then
    (acc.1.RemoveFile mdPath, acc.2)
  else acc

/-- `Syncer.detectOrphans` (sync.go): iterate over a snapshot of the
tracked paths, taken before any removal. -/
def detectOrphans (localFiles : List (String × String))
    (scrivBinder : List Document) (st : State) (plan : Plan) : State × Plan :=
  st.AllTrackedPaths.foldl (detectOrphanStep localFiles scrivBinder) (st, plan)

/-- `Syncer.detectAllChanges` (sync.go). -/
def detectAllChanges (hash : String → String) (cfg : SyncConfig) (mdRoot : String)
    (localFiles : List (String × String)) (scrivBinder : List Document)
    (st : State) : State × Plan :=
  let plan := (EnabledMappings cfg).foldl
    (fun plan mapping =>
      detectChangesForMapping hash st mdRoot localFiles scrivBinder mapping plan)
    NewPlan
  detectOrphans localFiles scrivBinder st plan

/-- `DeletionAction` (deletion.go). -/
inductive DeletionAction where
  | ActionDelete
  | ActionRecreate
  | ActionSkip
deriving DecidableEq, Repr

/-- `resolveOrphanAction` (deletion.go).  The interactive prompt loops until
it obtains a valid choice; that validated choice is modelled by the
`promptResult` oracle. -/
def resolveOrphanAction (orphan : Orphan) (defaultAction : String)
    (interactive : Bool) (promptResult : Orphan → DeletionAction) : DeletionAction :=
  if !interactive then
    if defaultAction == "delete" then DeletionAction.ActionDelete
    else if defaultAction == "recreate" then DeletionAction.ActionRecreate
    else if defaultAction == "skip" then DeletionAction.ActionSkip
    else DeletionAction.ActionSkip
  else promptResult orphan

/-- `Syncer.resolveConflict` (sync.go): non-interactive mode returns the
configured default unvalidated; the interactive prompt (modelled by the
oracle) only ever returns `"markdown"`, `"scrivener"` or `"skip"`. -/
def resolveConflict (interactive : Bool) (defaultConflictResolution : String)
    (promptResult : Conflict → String) (conflict : Conflict) : String :=
  if !interactive then defaultConflictResolution
  else promptResult conflict

/-- Go `strings.TrimPrefix`; models `filepath.Rel(mdRoot, mdPath)` for the
paths the Syncer builds (always under `mdRoot`). -/
def trimPrefixStr (s pre : String) : String :=
  if strStartsWith s pre then s.drop pre.length else s

/-- The on-disk half of the Scrivener project: the persisted `.scrivx`
binder and the per-UUID content files under `Files/Data` (the new
`{UUID}/content.rtf` and old `{UUID}.rtf` layouts are collapsed into one
per-UUID map). -/
structure ScrivDisk where
  scrivx : List Document
  contentFiles : List (String × String)
deriving Repr

/-- The mutable world `executePlan` acts on: the local markdown files, the
Scrivener project on disk, the `Writer`'s in-memory binder and dirty flag,
the in-memory `State` and the persisted state file, plus a supply of fresh
UUIDs standing in for `generateUUID` and the lines printed so far. -/
structure ExecWorld where
  localFiles : List (String × String)
  scrivDisk : ScrivDisk
  writerBinder : List Document
  writerModified : Bool
  state : State
  stateFileDisk : Option State
  uuidSupply : List String
  output : List String
deriving Repr

/-- The fixed inputs of a run: configuration, mode, prompt oracles, the
abstracted fingerprint and RTF conversion functions, the wall clock, the
`Reader`'s document view, and success oracles for the two persistence
writes (`Writer.Save` on the project file, `State.Save` on the state
file). -/
structure ExecEnv where
  cfg : SyncConfig
  mdRoot : String
  interactive : Bool
  conflictChoice : Conflict → String
  orphanChoice : Orphan → DeletionAction
  hash : String → String
  markdownToRTF : String → String
  now : String
  readerBinder : List Document
  scrivxWriteOk : Bool
  stateWriteOk : Bool

/-- `Writer.UpdateDocumentContent` (writer.go): writes the (possibly
RTF-converted) content file directly to disk.  Note that it does not set
the writer's `modified` flag. -/
def UpdateDocumentContent (env : ExecEnv) (w : ExecWorld)
    (docUUID content : String) (useRTF : Bool) : ExecWorld :=
  let data := if useRTF then env.markdownToRTF content else content
  { w with scrivDisk := { w.scrivDisk with
      contentFiles := insertA w.scrivDisk.contentFiles docUUID data } }

/-- `Writer.addToParent` (writer.go). -/
def addToParent : List Document → String → Document → Option (List Document)
  | [], _, _ => none
  | Document.node u t c dt children :: rest, parentUUID, item =>
      if u == parentUUID then
        some (Document.node u t c dt (children ++ [item]) :: rest)
      else
        match addToParent children parentUUID item with
        | some ch => some (Document.node u t c dt ch :: rest)
        | none =>
            match addToParent rest parentUUID item with
            | some rest' => some (Document.node u t c dt children :: rest')
            | none => none

/-- `Writer.generateUUID` (writer.go), modelled as drawing the next element
of a supply of fresh UUIDs. -/
def takeUUID (w : ExecWorld) : String × ExecWorld :=
  match w.uuidSupply with
  | [] => ("", w)
  | u :: rest => (u, { w with uuidSupply := rest })

/-- `Writer.CreateDocument` (writer.go): a new binder item (at the root, or
under the parent), the content file written immediately through
`UpdateDocumentContent`, and the dirty flag set.  `none` models the
"parent UUID not found" error. -/
def CreateDocument (env : ExecEnv) (w : ExecWorld)
    (title content parentUUID : String) (useRTF : Bool) :
    Option (String × ExecWorld) :=
  match (if parentUUID == "" then
           some ((takeUUID w).2.writerBinder ++
             [Document.node (takeUUID w).1 title "" "document" []])
         else
           addToParent (takeUUID w).2.writerBinder parentUUID
             (Document.node (takeUUID w).1 title "" "document" [])) with
  | none => none
  | some b =>
      some ((takeUUID w).1,
        { UpdateDocumentContent env { (takeUUID w).2 with writerBinder := b }
            (takeUUID w).1 content useRTF
          with writerModified := true })

/-- `Writer.CreateFolder` (writer.go). -/
def CreateFolder (w : ExecWorld) (title parentUUID : String) :
    Option (String × ExecWorld) :=
  match (if parentUUID == "" then
           some ((takeUUID w).2.writerBinder ++
             [Document.node (takeUUID w).1 title "" "folder" []])
         else
           addToParent (takeUUID w).2.writerBinder parentUUID
             (Document.node (takeUUID w).1 title "" "folder" [])) with
  | none => none
  | some b =>
      some ((takeUUID w).1,
        { (takeUUID w).2 with writerBinder := b, writerModified := true })

/-- `Writer.FindFolderByTitle` (writer.go); the writer's folder-type test
(`Folder`/`DraftFolder`/`ResearchFolder`) is carried by the unified
`"folder"` doc type of the model. -/
def writerFindFolderByTitle (binder : List Document) (title : String) : Option String :=
  (findFolderInDocs binder title).map Document.UUID

/-- `Syncer.ensureScrivenerFolder` (sync.go). -/
def ensureScrivenerFolder (env : ExecEnv) (w : ExecWorld) (mdPath : String) :
    ExecWorld × Except String String :=
  let relPath := trimPrefixStr mdPath (env.mdRoot ++ "/")
  let parts := relPath.splitOn "/"
  if parts.length < 2 then (w, Except.ok "")
  else
    let mdDir := parts.headD ""
    match (EnabledMappings env.cfg).find? (fun m => m.markdownDir == mdDir) with
    | some mapping =>
        match writerFindFolderByTitle w.writerBinder mapping.scrivenerFolder with
        | some uuid => (w, Except.ok uuid)
        | none =>
            if env.cfg.createMissingFolders then
              match CreateFolder w mapping.scrivenerFolder "" with
              | some pr => (pr.2, Except.ok pr.1)
              | none => (w, Except.error "parent UUID not found")
            else
              (w, Except.error ("Scrivener folder not found: " ++ mapping.scrivenerFolder))
    | none => (w, Except.ok "")

/-- `Syncer.recordSync` (sync.go). -/
def recordSync (env : ExecEnv) (w : ExecWorld) (mdPath scrivUUID content : String) :
    ExecWorld :=
  { w with state := w.state.RecordFile mdPath scrivUUID (env.hash content) env.now env.now }

/-- `Syncer.executeOrphanAction` (sync.go).  For a `"markdown"`-located
orphan, delete removes the file and calls `State.RemoveFile`; for a
Scrivener-located orphan the source only prints a "not yet implemented"
note.  Individual local-file write failures are not modelled; the read
failure of a vanished markdown file is. -/
def executeOrphanAction (env : ExecEnv) (orphan : Orphan)
    (action : DeletionAction) (w : ExecWorld) : ExecWorld × Option String :=
  match action with
  | DeletionAction.ActionDelete =>
      if orphan.location == "markdown" then
        let w := { w with output := w.output ++ ["  Deleting markdown file: " ++ orphan.path] }
        let w := { w with localFiles := eraseA w.localFiles orphan.path }
        ({ w with state := w.state.RemoveFile orphan.path }, none)
      else
        ({ w with output := w.output ++
            ["  Note: Deleting from Scrivener not yet implemented. Skipping: " ++ orphan.title] },
         none)
  | DeletionAction.ActionRecreate =>
      if orphan.location == "markdown" then
        match lookupA w.localFiles orphan.path with
        | none => (w, some ("failed to read " ++ orphan.path))
        | some content =>
            match ensureScrivenerFolder env w orphan.path with
            | (w, Except.error e) => (w, some e)
            | (w, Except.ok folderUUID) =>
                match CreateDocument env w orphan.title content folderUUID true with
                | none => (w, some ("failed to recreate document " ++ orphan.title))
                | some pr =>
                    let w := { pr.2 with output := pr.2.output ++
                        ["  Recreated in Scrivener: " ++ orphan.title] }
                    (recordSync env w orphan.path pr.1 content, none)
      else
        match (GetAllDocuments env.readerBinder).find?
            (fun d => d.UUID == orphan.scrivUUID) with
        | some doc =>
            let w := { w with localFiles := insertA w.localFiles orphan.path doc.Content }
            let w := { w with output := w.output ++ ["  Recreated markdown: " ++ orphan.path] }
            (recordSync env w orphan.path orphan.scrivUUID doc.Content, none)
        | none => (w, none)
  | DeletionAction.ActionSkip =>
      ({ w with output := w.output ++ ["  Skipped orphan: " ++ orphan.path] }, none)

/-- The conflict loop of `Syncer.executePlan` (sync.go). -/
def execConflicts (env : ExecEnv) : List Conflict → ExecWorld → ExecWorld
  | [], w => w
  | c :: rest, w =>
      let resolution := resolveConflict env.interactive
        env.cfg.defaultConflictResolution env.conflictChoice c
      let w :=
        if resolution == "markdown" then
          let w := UpdateDocumentContent env w c.scrivUUID c.markdownContent true
          recordSync env w c.markdownPath c.scrivUUID c.markdownContent
        else if resolution == "scrivener" then
          let w := { w with localFiles := insertA w.localFiles c.markdownPath c.scrivenerContent }
          recordSync env w c.markdownPath c.scrivUUID c.scrivenerContent
        else if resolution == "skip" then
          { w with output := w.output ++ ["  Skipped conflict: " ++ c.markdownPath] }
        else w
      execConflicts env rest w

/-- The create-in-Scrivener loop of `Syncer.executePlan` (sync.go). -/
def execCreatesInScriv (env : ExecEnv) :
    List FileChange → ExecWorld → ExecWorld × Option String
  | [], w => (w, none)
  | fc :: rest, w =>
      let w := { w with output := w.output ++ ["  Creating in Scrivener: " ++ fc.title] }
      match ensureScrivenerFolder env w fc.markdownPath with
      | (w, Except.error e) => (w, some e)
      | (w, Except.ok folderUUID) =>
          match CreateDocument env w fc.title fc.content folderUUID true with
          | none => (w, some ("failed to create document " ++ fc.title))
          | some pr =>
              let w := recordSync env pr.2 fc.markdownPath pr.1 fc.content
              execCreatesInScriv env rest w

/-- The create-in-markdown loop of `Syncer.executePlan` (sync.go);
`os.MkdirAll` has no observable effect on the file map. -/
def execCreatesInMarkdown (env : ExecEnv) : List FileChange → ExecWorld → ExecWorld
  | [], w => w
  | fc :: rest, w =>
      let w := { w with output := w.output ++ ["  Creating in markdown: " ++ fc.markdownPath] }
      let w := { w with localFiles := insertA w.localFiles fc.markdownPath fc.content }
      let w := recordSync env w fc.markdownPath fc.scrivUUID fc.content
      execCreatesInMarkdown env rest w

/-- The update-in-Scrivener loop of `Syncer.executePlan` (sync.go). -/
def execUpdatesInScriv (env : ExecEnv) : List FileChange → ExecWorld → ExecWorld
  | [], w => w
  | fc :: rest, w =>
      let w := { w with output := w.output ++ ["  Updating in Scrivener: " ++ fc.title] }
      let w := UpdateDocumentContent env w fc.scrivUUID fc.content true
      let w := recordSync env w fc.markdownPath fc.scrivUUID fc.content
      execUpdatesInScriv env rest w

/-- The update-in-markdown loop of `Syncer.executePlan` (sync.go). -/
def execUpdatesInMarkdown (env : ExecEnv) : List FileChange → ExecWorld → ExecWorld
  | [], w => w
  | fc :: rest, w =>
      let w := { w with output := w.output ++ ["  Updating in markdown: " ++ fc.markdownPath] }
      let w := { w with localFiles := insertA w.localFiles fc.markdownPath fc.content }
      let w := recordSync env w fc.markdownPath fc.scrivUUID fc.content
      execUpdatesInMarkdown env rest w

/-- The orphan loop of `Syncer.executePlan` (sync.go); the `orphanActions`
map the source builds is consumed by nothing in `executePlan` and is
omitted. -/
def execOrphans (env : ExecEnv) : List Orphan → ExecWorld → ExecWorld × Option String
  | [], w => (w, none)
  | o :: rest, w =>
      let action := resolveOrphanAction o env.cfg.defaultDeletionAction
        env.interactive env.orphanChoice
      match executeOrphanAction env o action w with
      | (w, some e) => (w, some e)
      | (w, none) => execOrphans env rest w

/-- The persistence tail of `Syncer.executePlan` (sync.go): `writer.Save`
(a no-op that cannot fail when the dirty flag is clear, a project-file
write gated by `scrivxWriteOk` otherwise) followed by
`state.UpdateLastSync` and `state.Save` (gated by `stateWriteOk`).
`writerSaveApply` is the effect of a successful `Writer.Save`
(writer.go). -/
def writerSaveApply (w : ExecWorld) : ExecWorld :=
  if w.writerModified then
    { w with scrivDisk := { w.scrivDisk with scrivx := w.writerBinder }
             writerModified := false }
  else w

def saveProjectAndState (env : ExecEnv) (w : ExecWorld) :
    ExecWorld × Option String :=
  if w.writerModified && !env.scrivxWriteOk then
    (w, some "failed to save Scrivener project")
  else if !env.stateWriteOk then
    ({ writerSaveApply w with
         state := (writerSaveApply w).state.UpdateLastSync env.now },
     some "failed to save sync state")
  else
    ({ writerSaveApply w with
         state := (writerSaveApply w).state.UpdateLastSync env.now
         stateFileDisk := some ((writerSaveApply w).state.UpdateLastSync env.now)
         output := (writerSaveApply w).output ++ ["Sync completed successfully!"] },
     none)

/-- `Syncer.executePlan` (sync.go): conflicts, creates, updates, orphans,
then the two persistence calls.  On an error the world mutated so far is
returned together with the message. -/
def executePlan (env : ExecEnv) (plan : Plan) (w : ExecWorld) :
    ExecWorld × Option String :=
  match execCreatesInScriv env plan.ToCreateInScriv
      (execConflicts env plan.Conflicts w) with
  | (w1, some e) => (w1, some e)
  | (w1, none) =>
    match execOrphans env plan.Orphans
        (execUpdatesInMarkdown env plan.ToUpdateInMarkdown
          (execUpdatesInScriv env plan.ToUpdateInScriv
            (execCreatesInMarkdown env plan.ToCreateInMarkdown w1))) with
    | (w2, some e) => (w2, some e)
    | (w2, none) => saveProjectAndState env w2

/-- Fixture: an environment whose configured default conflict resolution is
the out-of-band value `"prompt"` in non-interactive mode. -/
def envC10 : ExecEnv :=
  { cfg := { folderMappings := [], createMissingFolders := false
             defaultConflictResolution := "prompt", defaultDeletionAction := "skip" }
    mdRoot := "root", interactive := false
    conflictChoice := fun _ => "skip"
    orphanChoice := fun _ => DeletionAction.ActionSkip
    hash := fun s => s, markdownToRTF := fun s => s, now := "T"
    readerBinder := [], scrivxWriteOk := true, stateWriteOk := true }

/-- Fixture: a plan holding one conflict and nothing else. -/
def planC10 : Plan :=
  { ToCreateInScriv := [], ToCreateInMarkdown := [], ToUpdateInScriv := []
    ToUpdateInMarkdown := []
    Conflicts := [{ markdownPath := "root/d/a.md", scrivUUID := "U1", title := "A"
                    markdownContent := "m", scrivenerContent := "s" }]
    Orphans := [] }

/-- Fixture: a small world with one local file and one Scrivener content
file. -/
def wC10 : ExecWorld :=
  { localFiles := [("root/d/a.md", "m")]
    scrivDisk := { scrivx := [], contentFiles := [("U1", "s")] }
    writerBinder := [], writerModified := false
    state := NewState, stateFileDisk := none
    uuidSupply := [], output := [] }

/-- Fixture: like `envC10` but with the valid default resolution `"skip"`. -/
def envC9 : ExecEnv :=
  { envC10 with
    cfg := { envC10.cfg with defaultConflictResolution := "skip" } }

/-- Fixture: an environment whose project-file write would fail, with an
identity fingerprint and identity RTF conversion. -/
def envC3 : ExecEnv :=
  { envC10 with scrivxWriteOk := false }

/-- Fixture: a world with one tracked markdown file and its Scrivener
counterpart, the content file still holding the previously synced text. -/
def wC3 : ExecWorld :=
  { localFiles := [("root/d/a.md", "new")]
    scrivDisk := { scrivx := [Document.node "U1" "A" "" "document" []]
                   contentFiles := [("U1", "old")] }
    writerBinder := [Document.node "U1" "A" "" "document" []]
    writerModified := false
    state := { lastSync := none
               files := [("root/d/a.md",
                 { scrivUUID := "U1", contentHash := "old"
                   modifiedTime := "T0", lastSynced := "T0" })]
               scrivPath := "", deletedFiles := [] }
    stateFileDisk := none, uuidSupply := [], output := [] }

/-- Fixture: a plan holding a single update-in-Scrivener operation. -/
def planC3 : Plan :=
  { ToCreateInScriv := [], ToCreateInMarkdown := []
    ToUpdateInScriv := [{ markdownPath := "root/d/a.md", scrivUUID := "U1"
                          title := "A", content := "new" }]
    ToUpdateInMarkdown := [], Conflicts := [], Orphans := [] }

/-- Specification helper: a tracked entry survives orphan detection iff it
still exists on at least one side. -/
def orphanKeep (localFiles : List (String × String)) (scrivBinder : List Document)
    (pr : String × FileState) : Bool :=
  fileExists localFiles pr.1 || scrivDocExists scrivBinder pr.2.scrivUUID

/-- Specification helper: the orphan plan item (if any) that
`detectOrphans` emits for one tracked entry. -/
def orphanItemFor (localFiles : List (String × String)) (scrivBinder : List Document)
    (pr : String × FileState) : Option Orphan :=
  if fileExists localFiles pr.1 && !(scrivDocExists scrivBinder pr.2.scrivUUID) then
    some { path := pr.1, location := "markdown", scrivUUID := pr.2.scrivUUID
           title := titleFromFilename (baseName pr.1), lastSyncTime := pr.2.lastSynced }
  else if !(fileExists localFiles pr.1) && scrivDocExists scrivBinder pr.2.scrivUUID then
    some { path := pr.1, location := "scrivener", scrivUUID := pr.2.scrivUUID
           title := titleFromFilename (baseName pr.1), lastSyncTime := pr.2.lastSynced }
  else none

/-- Fixture: a state tracking one markdown path against UUID `U1`. -/
def stC4 : State :=
  { lastSync := none
    files := [("root/d/a.md",
      { scrivUUID := "U1", contentHash := "h0"
        modifiedTime := "T0", lastSynced := "T0" })]
    scrivPath := "", deletedFiles := [] }

/-- Fixture: a Scrivener binder holding the single document `U1`. -/
def sbC4 : List Document :=
  [Document.node "U1" "A" "body" "document" []]

/-- Fixture: the orphan that detection produces for `stC4` when the local
file is gone and `U1` still exists. -/
def oC4 : Orphan :=
  { path := "root/d/a.md", location := "scrivener", scrivUUID := "U1"
    title := titleFromFilename (baseName "root/d/a.md"), lastSyncTime := "T0" }

/-- Fixture: a world whose Scrivener store still holds document `U1`. -/
def wC4 : ExecWorld :=
  { localFiles := []
    scrivDisk := { scrivx := sbC4, contentFiles := [("U1", "body")] }
    writerBinder := sbC4, writerModified := false
    state := stC4, stateFileDisk := none
    uuidSupply := [], output := [] }

/-- Fixture: an enabled mapping from markdown directory `d` to Scrivener
folder `Folder`. -/
def mapC8 : FolderMapping :=
  { markdownDir := "d", scrivenerFolder := "Folder", syncEnabled := true }

/-- Fixture: a configuration with the single enabled mapping `mapC8`. -/
def cfgC7 : SyncConfig :=
  { folderMappings := [mapC8], createMissingFolders := true
    defaultConflictResolution := "skip", defaultDeletionAction := "skip" }

-- ===================== theorems =====================

theorem execConflicts_unknown_resolution (env : ExecEnv) (cs : List Conflict)
    (w : ExecWorld) (hni : env.interactive = false)
    (h1 : env.cfg.defaultConflictResolution ≠ "markdown")
    (h2 : env.cfg.defaultConflictResolution ≠ "scrivener")
    (h3 : env.cfg.defaultConflictResolution ≠ "skip") :
    execConflicts env cs w = w := by
  induction cs generalizing w with
  | nil => rfl
  | cons c rest ih =>
      have hres : resolveConflict env.interactive env.cfg.defaultConflictResolution
          env.conflictChoice c = env.cfg.defaultConflictResolution := by
        unfold resolveConflict; rw [hni]; simp
      simp only [execConflicts, hres]
      simp only [show (env.cfg.defaultConflictResolution == "markdown") = false by simp [h1],
        show (env.cfg.defaultConflictResolution == "scrivener") = false by simp [h2],
        show (env.cfg.defaultConflictResolution == "skip") = false by simp [h3],
        Bool.false_eq_true, if_false]
      exact ih w

/-- Claim C10: in non-interactive mode, a configured default conflict
resolution other than `"markdown"`, `"scrivener"` or `"skip"` (e.g.
`"prompt"` or the empty string) leaves every conflict silently unresolved:
no store write, no state change beyond the usual final `UpdateLastSync`
and state save, no error, and no skip message in the output. -/
theorem nonInteractive_unknown_default_silent (env : ExecEnv) (plan : Plan)
    (w : ExecWorld) (hni : env.interactive = false)
    (hres : env.cfg.defaultConflictResolution ≠ "markdown" ∧
            env.cfg.defaultConflictResolution ≠ "scrivener" ∧
            env.cfg.defaultConflictResolution ≠ "skip")
    (hbuckets : plan.ToCreateInScriv = [] ∧ plan.ToCreateInMarkdown = [] ∧
                plan.ToUpdateInScriv = [] ∧ plan.ToUpdateInMarkdown = [] ∧
                plan.Orphans = [])
    (hmod : w.writerModified = false) (hsave : env.stateWriteOk = true) :
    executePlan env plan w =
      ({ w with state := w.state.UpdateLastSync env.now
                stateFileDisk := some (w.state.UpdateLastSync env.now)
                output := w.output ++ ["Sync completed successfully!"] }, none) := by
  obtain ⟨hb1, hb2, hb3, hb4, hb5⟩ := hbuckets
  unfold executePlan
  rw [execConflicts_unknown_resolution env plan.Conflicts w hni hres.1 hres.2.1 hres.2.2]
  rw [hb1, hb2, hb3, hb4, hb5]
  simp only [execCreatesInScriv, execCreatesInMarkdown, execUpdatesInScriv,
    execUpdatesInMarkdown, execOrphans]
  unfold saveProjectAndState
  rw [hmod, hsave]
  simp [hmod, writerSaveApply]

/-- Witness for C10: the unknown default `"prompt"` on a concrete
one-conflict plan returns success and touches nothing but the state
timestamp, the state file and the completion line. -/
theorem nonInteractive_unknown_default_silent_witness :
    executePlan envC10 planC10 wC10 =
      ({ wC10 with state := wC10.state.UpdateLastSync envC10.now
                   stateFileDisk := some (wC10.state.UpdateLastSync envC10.now)
                   output := wC10.output ++ ["Sync completed successfully!"] }, none) :=
  nonInteractive_unknown_default_silent envC10 planC10 wC10 rfl
    ⟨by decide, by decide, by decide⟩ ⟨rfl, rfl, rfl, rfl, rfl⟩ rfl rfl

theorem lookupA_erase_self {α : Type} (m : List (String × α)) (k : String) :
    lookupA (eraseA m k) k = none := by
  induction m with
  | nil => rfl
  | cons a t ih =>
      by_cases ha : a.1 = k
      · simpa [eraseA, ha] using ih
      · simpa [eraseA, lookupA, ha] using ih

theorem lookupA_erase_ne {α : Type} (m : List (String × α)) (k k' : String)
    (h : k' ≠ k) : lookupA (eraseA m k) k' = lookupA m k' := by
  induction m with
  | nil => rfl
  | cons a t ih =>
      by_cases ha : a.1 = k
      · have h2 : a.1 ≠ k' := fun he => h (by rw [← he, ha])
        simpa [eraseA, lookupA, ha, h2, h, Ne.symm h] using ih
      · by_cases hk' : a.1 = k'
        · simp [eraseA, lookupA, ha, hk', h, Ne.symm h]
        · simpa [eraseA, lookupA, ha, hk', h, Ne.symm h] using ih

theorem lookupA_insert_self {α : Type} (m : List (String × α)) (k : String) (v : α) :
    lookupA (insertA m k v) k = some v := by
  simp [lookupA, insertA]

theorem lookupA_insert_ne {α : Type} (m : List (String × α)) (k k' : String) (v : α)
    (h : k' ≠ k) : lookupA (insertA m k v) k' = lookupA m k' := by
  have hk : k ≠ k' := fun he => h he.symm
  simp [lookupA, insertA, hk, lookupA_erase_ne m k k' h]

/-- Reduction of `DetectConflict` on a live entry to its fingerprint tests. -/
theorem detectConflict_live (s : State) (p mdHash uuid scrivHash : String)
    (fs : FileState) (h : s.GetFileState p = some fs) :
    s.DetectConflict p mdHash uuid scrivHash =
      (if fs.contentHash ≠ mdHash ∧ fs.contentHash ≠ scrivHash then
         ConflictType.ConflictBoth
       else if fs.contentHash ≠ mdHash then ConflictType.ConflictMarkdownOnly
       else if fs.contentHash ≠ scrivHash then ConflictType.ConflictScrivenerOnly
       else ConflictType.ConflictNone) := by
  unfold State.DetectConflict
  rw [h]
  by_cases h1 : fs.contentHash = mdHash <;> by_cases h2 : fs.contentHash = scrivHash <;>
    simp [h1, h2]

/-- Claim C1: for a path with a live tracked entry, `DetectConflict` compares
the stored last-synced fingerprint independently against the current local
and external fingerprints: `ConflictNone` iff both equal it,
`ConflictMarkdownOnly` iff exactly the markdown hash differs,
`ConflictScrivenerOnly` iff exactly the Scrivener hash differs, and
`ConflictBoth` iff both differ; so changing exactly one side never yields
`ConflictBoth` or `ConflictNone`. -/
theorem detectConflict_live_classification (s : State)
    (p mdHash uuid scrivHash : String) (fs : FileState)
    (h : s.GetFileState p = some fs) :
    (s.DetectConflict p mdHash uuid scrivHash = ConflictType.ConflictNone ↔
       mdHash = fs.contentHash ∧ scrivHash = fs.contentHash) ∧
    (s.DetectConflict p mdHash uuid scrivHash = ConflictType.ConflictMarkdownOnly ↔
       mdHash ≠ fs.contentHash ∧ scrivHash = fs.contentHash) ∧
    (s.DetectConflict p mdHash uuid scrivHash = ConflictType.ConflictScrivenerOnly ↔
       mdHash = fs.contentHash ∧ scrivHash ≠ fs.contentHash) ∧
    (s.DetectConflict p mdHash uuid scrivHash = ConflictType.ConflictBoth ↔
       mdHash ≠ fs.contentHash ∧ scrivHash ≠ fs.contentHash) := by
  rw [detectConflict_live s p mdHash uuid scrivHash fs h]
  by_cases h1 : fs.contentHash = mdHash <;> by_cases h2 : fs.contentHash = scrivHash
  · subst h1; subst h2; simp
  · subst h1; simp [h2, Ne.symm h2]
  · subst h2; simp [h1, Ne.symm h1]
  · simp [h1, h2, Ne.symm h1, Ne.symm h2]

/-- Witness for C1 at a concrete state and fingerprints. -/
theorem detectConflict_live_classification_witness :
    ({ lastSync := none, files := [("a.md", ⟨"U1", "h0", "t", "t"⟩)],
       scrivPath := "", deletedFiles := [] } : State).DetectConflict
         "a.md" "h1" "U1" "h0" = ConflictType.ConflictMarkdownOnly := by
  have h := detectConflict_live_classification
    { lastSync := none, files := [("a.md", ⟨"U1", "h0", "t", "t"⟩)],
      scrivPath := "", deletedFiles := [] } "a.md" "h1" "U1" "h0"
    ⟨"U1", "h0", "t", "t"⟩ (by decide)
  exact h.2.1.mpr (by decide)

/-- Claim C2: for a path with no live entry, a tombstone forces
`ConflictBoth` whatever the fingerprints are, and `ConflictNewFile` is
returned exactly when the path is in neither the live nor the deleted map. -/
theorem detectConflict_tombstone_newfile (s : State)
    (p mdHash uuid scrivHash : String) :
    (s.GetFileState p = none → (s.GetDeletedFileState p).isSome →
       s.DetectConflict p mdHash uuid scrivHash = ConflictType.ConflictBoth) ∧
    (s.DetectConflict p mdHash uuid scrivHash = ConflictType.ConflictNewFile ↔
       s.GetFileState p = none ∧ s.GetDeletedFileState p = none) := by
  unfold State.DetectConflict
  cases hl : s.GetFileState p with
  | none =>
      cases hd : s.GetDeletedFileState p with
      | none => simp
      | some fs => simp
  | some fs =>
      constructor
      · intro hno _hds; simp at hno
      · constructor
        · intro hres
          by_cases h1 : (fs.contentHash != mdHash) = true <;>
            by_cases h2 : (fs.contentHash != scrivHash) = true <;>
            simp [h1, h2] at hres
        · rintro ⟨hno, -⟩; simp at hno

/-- Claim C5: the live and deleted maps stay disjoint: a fresh state is
disjoint, `RecordFile` and `RemoveFile` preserve disjointness, `RecordFile`
inserts/overwrites the live entry and clears any tombstone for the path,
and `RemoveFile` moves the live entry (if present) into the tombstone map
and is a complete no-op when the path is untracked. -/
theorem state_record_remove_disjoint (s : State)
    (p scrivUUID hash modified now : String) (hdis : s.PathDisjoint) :
    NewState.PathDisjoint ∧
    ((s.RecordFile p scrivUUID hash modified now).PathDisjoint ∧
     (s.RemoveFile p).PathDisjoint) ∧
    ((s.RecordFile p scrivUUID hash modified now).GetFileState p =
       some { scrivUUID := scrivUUID, contentHash := hash
              modifiedTime := modified, lastSynced := now } ∧
     (s.RecordFile p scrivUUID hash modified now).GetDeletedFileState p = none) ∧
    (∀ fs : FileState, s.GetFileState p = some fs →
       (s.RemoveFile p).GetFileState p = none ∧
       (s.RemoveFile p).GetDeletedFileState p = some fs) ∧
    (s.GetFileState p = none → s.RemoveFile p = s) := by
  refine ⟨fun r => Or.inl rfl, ⟨?_, ?_⟩, ⟨?_, ?_⟩, ?_, ?_⟩
  · intro r
    show lookupA (insertA s.files p _) r = none ∨
         lookupA (eraseA s.deletedFiles p) r = none
    by_cases hr : r = p
    · subst hr; exact Or.inr (lookupA_erase_self _ _)
    · rw [lookupA_insert_ne _ _ _ _ hr, lookupA_erase_ne _ _ _ hr]
      exact hdis r
  · intro r
    unfold State.RemoveFile
    cases hf : lookupA s.files p with
    | none => exact hdis r
    | some fs =>
        show lookupA (eraseA s.files p) r = none ∨
             lookupA (insertA s.deletedFiles p fs) r = none
        by_cases hr : r = p
        · subst hr; exact Or.inl (lookupA_erase_self _ _)
        · rw [lookupA_erase_ne _ _ _ hr, lookupA_insert_ne _ _ _ _ hr]
          exact hdis r
  · exact lookupA_insert_self s.files p _
  · exact lookupA_erase_self s.deletedFiles p
  · intro fs hf
    have hf' : lookupA s.files p = some fs := hf
    unfold State.RemoveFile
    rw [hf']
    exact ⟨lookupA_erase_self _ _, lookupA_insert_self _ _ _⟩
  · intro h0
    have h0' : lookupA s.files p = none := h0
    unfold State.RemoveFile
    rw [h0']

/-- Witness for C5: the disjointness hypothesis discharged at a concrete
state with one live entry and an empty tombstone map. -/
theorem state_record_remove_disjoint_witness :
    (({ lastSync := none, files := [("a.md", ⟨"U1", "h0", "t", "t"⟩)],
        scrivPath := "", deletedFiles := [] } : State).RecordFile
          "a.md" "U2" "h1" "t1" "t2").GetDeletedFileState "a.md" = none :=
  (state_record_remove_disjoint
    { lastSync := none, files := [("a.md", ⟨"U1", "h0", "t", "t"⟩)],
      scrivPath := "", deletedFiles := [] }
    "a.md" "U2" "h1" "t1" "t2" (fun _ => Or.inr rfl)).2.2.1.2

/-- Witness for C2: a tombstoned path yields `ConflictBoth` for arbitrary
fingerprints, and a completely unknown path yields `ConflictNewFile`. -/
theorem detectConflict_tombstone_newfile_witness :
    ({ lastSync := none, files := [],
       scrivPath := "", deletedFiles := [("a.md", ⟨"U1", "h0", "t", "t"⟩)] } : State).DetectConflict
         "a.md" "hx" "U1" "hy" = ConflictType.ConflictBoth ∧
    ({ lastSync := none, files := [], scrivPath := "",
       deletedFiles := [] } : State).DetectConflict
         "b.md" "hx" "U2" "hy" = ConflictType.ConflictNewFile := by
  constructor
  · exact (detectConflict_tombstone_newfile
      { lastSync := none, files := [], scrivPath := "",
        deletedFiles := [("a.md", ⟨"U1", "h0", "t", "t"⟩)] }
      "a.md" "hx" "U1" "hy").1 (by decide) (by decide)
  · exact (detectConflict_tombstone_newfile
      { lastSync := none, files := [], scrivPath := "", deletedFiles := [] }
      "b.md" "hx" "U2" "hy").2.mpr (by decide)

theorem detectConflict_congr (s1 s2 : State) (p : String)
    (hf : s1.GetFileState p = s2.GetFileState p)
    (hd : s1.GetDeletedFileState p = s2.GetDeletedFileState p)
    (mdHash uuid scrivHash : String) :
    s1.DetectConflict p mdHash uuid scrivHash =
      s2.DetectConflict p mdHash uuid scrivHash := by
  unfold State.DetectConflict
  rw [hf, hd]

theorem execConflicts_preserve_at (env : ExecEnv) (cs : List Conflict)
    (w : ExecWorld) (P U : String)
    (h : ∀ c' ∈ cs,
        (resolveConflict env.interactive env.cfg.defaultConflictResolution
            env.conflictChoice c' = "markdown" ∨
         resolveConflict env.interactive env.cfg.defaultConflictResolution
            env.conflictChoice c' = "scrivener") →
        c'.markdownPath ≠ P ∧ c'.scrivUUID ≠ U) :
    lookupA (execConflicts env cs w).localFiles P = lookupA w.localFiles P ∧
    lookupA (execConflicts env cs w).scrivDisk.contentFiles U =
      lookupA w.scrivDisk.contentFiles U ∧
    lookupA (execConflicts env cs w).state.files P = lookupA w.state.files P ∧
    lookupA (execConflicts env cs w).state.deletedFiles P =
      lookupA w.state.deletedFiles P := by
  induction cs generalizing w with
  | nil => exact ⟨rfl, rfl, rfl, rfl⟩
  | cons c rest ih =>
      have hc := h c (List.mem_cons_self _ _)
      have hrest : ∀ c' ∈ rest,
          (resolveConflict env.interactive env.cfg.defaultConflictResolution
              env.conflictChoice c' = "markdown" ∨
           resolveConflict env.interactive env.cfg.defaultConflictResolution
              env.conflictChoice c' = "scrivener") →
          c'.markdownPath ≠ P ∧ c'.scrivUUID ≠ U :=
        fun c' hm => h c' (List.mem_cons_of_mem _ hm)
      by_cases hm : resolveConflict env.interactive env.cfg.defaultConflictResolution
          env.conflictChoice c = "markdown"
      · have hp := (hc (Or.inl hm)).1
        have hu := (hc (Or.inl hm)).2
        have hstep : execConflicts env (c :: rest) w =
            execConflicts env rest
              (recordSync env (UpdateDocumentContent env w c.scrivUUID c.markdownContent true)
                c.markdownPath c.scrivUUID c.markdownContent) := by
          simp [execConflicts, hm]
        rw [hstep]
        obtain ⟨i1, i2, i3, i4⟩ := ih
          (recordSync env (UpdateDocumentContent env w c.scrivUUID c.markdownContent true)
            c.markdownPath c.scrivUUID c.markdownContent) hrest
        refine ⟨i1.trans ?_, i2.trans ?_, i3.trans ?_, i4.trans ?_⟩
        · rfl
        · exact lookupA_insert_ne _ _ _ _ (Ne.symm hu)
        · exact lookupA_insert_ne _ _ _ _ (Ne.symm hp)
        · exact lookupA_erase_ne _ _ _ (Ne.symm hp)
      · by_cases hs : resolveConflict env.interactive env.cfg.defaultConflictResolution
            env.conflictChoice c = "scrivener"
        · have hp := (hc (Or.inr hs)).1
          have hstep : execConflicts env (c :: rest) w =
              execConflicts env rest
                (recordSync env
                  { w with localFiles := insertA w.localFiles c.markdownPath c.scrivenerContent }
                  c.markdownPath c.scrivUUID c.scrivenerContent) := by
            simp [execConflicts, hs,
              show (resolveConflict env.interactive env.cfg.defaultConflictResolution
                env.conflictChoice c == "markdown") = false by simp [hm]]
          rw [hstep]
          obtain ⟨i1, i2, i3, i4⟩ := ih
            (recordSync env
              { w with localFiles := insertA w.localFiles c.markdownPath c.scrivenerContent }
              c.markdownPath c.scrivUUID c.scrivenerContent) hrest
          refine ⟨i1.trans ?_, i2.trans ?_, i3.trans ?_, i4.trans ?_⟩
          · exact lookupA_insert_ne _ _ _ _ (Ne.symm hp)
          · rfl
          · exact lookupA_insert_ne _ _ _ _ (Ne.symm hp)
          · exact lookupA_erase_ne _ _ _ (Ne.symm hp)
        · by_cases hk : resolveConflict env.interactive env.cfg.defaultConflictResolution
              env.conflictChoice c = "skip"
          · have hstep : execConflicts env (c :: rest) w =
                execConflicts env rest
                  { w with output := w.output ++ ["  Skipped conflict: " ++ c.markdownPath] } := by
              simp [execConflicts, hk,
                show (resolveConflict env.interactive env.cfg.defaultConflictResolution
                  env.conflictChoice c == "markdown") = false by simp [hm],
                show (resolveConflict env.interactive env.cfg.defaultConflictResolution
                  env.conflictChoice c == "scrivener") = false by simp [hs]]
            rw [hstep]
            exact ih { w with output := w.output ++ ["  Skipped conflict: " ++ c.markdownPath] } hrest
          · have hstep : execConflicts env (c :: rest) w = execConflicts env rest w := by
              simp [execConflicts,
                show (resolveConflict env.interactive env.cfg.defaultConflictResolution
                  env.conflictChoice c == "markdown") = false by simp [hm],
                show (resolveConflict env.interactive env.cfg.defaultConflictResolution
                  env.conflictChoice c == "scrivener") = false by simp [hs],
                show (resolveConflict env.interactive env.cfg.defaultConflictResolution
                  env.conflictChoice c == "skip") = false by simp [hk]]
            rw [hstep]
            exact ih w hrest

theorem saveProjectAndState_preserve (env : ExecEnv) (w : ExecWorld) (P U : String) :
    lookupA (saveProjectAndState env w).1.localFiles P = lookupA w.localFiles P ∧
    lookupA (saveProjectAndState env w).1.scrivDisk.contentFiles U =
      lookupA w.scrivDisk.contentFiles U ∧
    lookupA (saveProjectAndState env w).1.state.files P = lookupA w.state.files P ∧
    lookupA (saveProjectAndState env w).1.state.deletedFiles P =
      lookupA w.state.deletedFiles P := by
  unfold saveProjectAndState
  by_cases h2 : w.writerModified <;> by_cases hx : env.scrivxWriteOk <;>
    by_cases h3 : env.stateWriteOk <;>
    simp [h2, hx, h3, State.UpdateLastSync, writerSaveApply]

theorem executePlan_conflicts_only (env : ExecEnv) (plan : Plan) (w : ExecWorld)
    (hb : plan.ToCreateInScriv = [] ∧ plan.ToCreateInMarkdown = [] ∧
          plan.ToUpdateInScriv = [] ∧ plan.ToUpdateInMarkdown = [] ∧
          plan.Orphans = []) :
    executePlan env plan w =
      saveProjectAndState env (execConflicts env plan.Conflicts w) := by
  obtain ⟨h1, h2, h3, h4, h5⟩ := hb
  unfold executePlan
  rw [h1, h2, h3, h4, h5]
  simp only [execCreatesInScriv, execCreatesInMarkdown, execUpdatesInScriv,
    execUpdatesInMarkdown, execOrphans]

/-- Claim C9: when a conflict's resolution is `skip`, executing the plan
leaves the conflict's local file, Scrivener content file and state entry
untouched (no write, no `recordSync`), so `DetectConflict` classifies the
path exactly as before and the conflict resurfaces on the next run. -/
theorem conflict_skip_frame (env : ExecEnv) (plan : Plan) (w : ExecWorld)
    (c : Conflict) (hc : c ∈ plan.Conflicts)
    (hskip : resolveConflict env.interactive env.cfg.defaultConflictResolution
        env.conflictChoice c = "skip")
    (hothers : ∀ c' ∈ plan.Conflicts, c' ≠ c →
        c'.markdownPath ≠ c.markdownPath ∧ c'.scrivUUID ≠ c.scrivUUID)
    (hb : plan.ToCreateInScriv = [] ∧ plan.ToCreateInMarkdown = [] ∧
          plan.ToUpdateInScriv = [] ∧ plan.ToUpdateInMarkdown = [] ∧
          plan.Orphans = [])
    (w' : ExecWorld) (err : Option String)
    (hrun : executePlan env plan w = (w', err)) :
    lookupA w'.localFiles c.markdownPath = lookupA w.localFiles c.markdownPath ∧
    lookupA w'.scrivDisk.contentFiles c.scrivUUID =
      lookupA w.scrivDisk.contentFiles c.scrivUUID ∧
    w'.state.GetFileState c.markdownPath = w.state.GetFileState c.markdownPath ∧
    w'.state.GetDeletedFileState c.markdownPath =
      w.state.GetDeletedFileState c.markdownPath ∧
    (∀ mdHash scrivHash : String,
      w'.state.DetectConflict c.markdownPath mdHash c.scrivUUID scrivHash =
        w.state.DetectConflict c.markdownPath mdHash c.scrivUUID scrivHash) := by
  have hpre : ∀ c' ∈ plan.Conflicts,
      (resolveConflict env.interactive env.cfg.defaultConflictResolution
          env.conflictChoice c' = "markdown" ∨
       resolveConflict env.interactive env.cfg.defaultConflictResolution
          env.conflictChoice c' = "scrivener") →
      c'.markdownPath ≠ c.markdownPath ∧ c'.scrivUUID ≠ c.scrivUUID := by
    intro c' hm hres'
    by_cases he : c' = c
    · subst he
      rw [hskip] at hres'
      rcases hres' with h | h <;> simp at h
    · exact hothers c' hm he
  obtain ⟨p1, p2, p3, p4⟩ :=
    execConflicts_preserve_at env plan.Conflicts w c.markdownPath c.scrivUUID hpre
  obtain ⟨q1, q2, q3, q4⟩ :=
    saveProjectAndState_preserve env (execConflicts env plan.Conflicts w)
      c.markdownPath c.scrivUUID
  rw [executePlan_conflicts_only env plan w hb] at hrun
  have hw' : (saveProjectAndState env (execConflicts env plan.Conflicts w)).1 = w' :=
    congrArg Prod.fst hrun
  rw [← hw']
  have hf : (saveProjectAndState env (execConflicts env plan.Conflicts w)).1.state.GetFileState
      c.markdownPath = w.state.GetFileState c.markdownPath := q3.trans p3
  have hd : (saveProjectAndState env (execConflicts env plan.Conflicts w)).1.state.GetDeletedFileState
      c.markdownPath = w.state.GetDeletedFileState c.markdownPath := q4.trans p4
  exact ⟨q1.trans p1, q2.trans p2, hf, hd,
    fun mdHash scrivHash =>
      detectConflict_congr _ _ _ hf hd mdHash c.scrivUUID scrivHash⟩

/-- Witness for C9: executing the one-conflict plan under the default
`"skip"` resolution leaves the conflict's file, document content and state
entry untouched. -/
theorem conflict_skip_frame_witness :
    lookupA (executePlan envC9 planC10 wC10).1.localFiles "root/d/a.md" =
      lookupA wC10.localFiles "root/d/a.md" ∧
    lookupA (executePlan envC9 planC10 wC10).1.scrivDisk.contentFiles "U1" =
      lookupA wC10.scrivDisk.contentFiles "U1" ∧
    (executePlan envC9 planC10 wC10).1.state.GetFileState "root/d/a.md" =
      wC10.state.GetFileState "root/d/a.md" := by
  have h := conflict_skip_frame envC9 planC10 wC10
    { markdownPath := "root/d/a.md", scrivUUID := "U1", title := "A"
      markdownContent := "m", scrivenerContent := "s" }
    (by decide) rfl (by decide) ⟨rfl, rfl, rfl, rfl, rfl⟩
    (executePlan envC9 planC10 wC10).1 (executePlan envC9 planC10 wC10).2 rfl
  exact ⟨h.1, h.2.1, h.2.2.1⟩

theorem takeUUID_stateFileDisk (w : ExecWorld) :
    (takeUUID w).2.stateFileDisk = w.stateFileDisk := by
  unfold takeUUID
  cases w.uuidSupply <;> rfl

theorem CreateDocument_stateFileDisk (env : ExecEnv) (w : ExecWorld)
    (title content parentUUID : String) (useRTF : Bool) (pr : String × ExecWorld)
    (h : CreateDocument env w title content parentUUID useRTF = some pr) :
    pr.2.stateFileDisk = w.stateFileDisk := by
  unfold CreateDocument at h
  split at h
  · simp at h
  · cases h
    simp [UpdateDocumentContent, takeUUID_stateFileDisk]

theorem CreateFolder_stateFileDisk (w : ExecWorld) (title parentUUID : String)
    (pr : String × ExecWorld) (h : CreateFolder w title parentUUID = some pr) :
    pr.2.stateFileDisk = w.stateFileDisk := by
  unfold CreateFolder at h
  split at h
  · simp at h
  · cases h
    simp [takeUUID_stateFileDisk]

theorem ensureScrivenerFolder_stateFileDisk (env : ExecEnv) (w : ExecWorld)
    (mdPath : String) :
    (ensureScrivenerFolder env w mdPath).1.stateFileDisk = w.stateFileDisk := by
  unfold ensureScrivenerFolder
  simp only []
  split
  · rfl
  · split
    · split
      · rfl
      · split
        · split
          · rename_i pr hpr
            exact CreateFolder_stateFileDisk w _ "" pr hpr
          · rfl
        · rfl
    · rfl

theorem execConflicts_stateFileDisk (env : ExecEnv) (cs : List Conflict)
    (w : ExecWorld) :
    (execConflicts env cs w).stateFileDisk = w.stateFileDisk := by
  induction cs generalizing w with
  | nil => rfl
  | cons c rest ih =>
      simp only [execConflicts]
      split
      · exact ih _
      · split
        · exact ih _
        · split
          · exact ih _
          · exact ih _

theorem execCreatesInScriv_stateFileDisk (env : ExecEnv) (l : List FileChange)
    (w : ExecWorld) :
    (execCreatesInScriv env l w).1.stateFileDisk = w.stateFileDisk := by
  induction l generalizing w with
  | nil => rfl
  | cons fc rest ih =>
      simp only [execCreatesInScriv]
      split
      · rename_i w1 e heq
        have h1 : (ensureScrivenerFolder env
            { w with output := w.output ++ ["  Creating in Scrivener: " ++ fc.title] }
            fc.markdownPath).1.stateFileDisk = w.stateFileDisk :=
          ensureScrivenerFolder_stateFileDisk env _ fc.markdownPath
        rw [heq] at h1
        exact h1
      · rename_i w1 folderUUID heq
        have h1 : (ensureScrivenerFolder env
            { w with output := w.output ++ ["  Creating in Scrivener: " ++ fc.title] }
            fc.markdownPath).1.stateFileDisk = w.stateFileDisk :=
          ensureScrivenerFolder_stateFileDisk env _ fc.markdownPath
        rw [heq] at h1
        split
        · exact h1
        · rename_i pr hpr
          have h2 := CreateDocument_stateFileDisk env w1 fc.title fc.content folderUUID true pr hpr
          have h3 : (recordSync env pr.2 fc.markdownPath pr.1 fc.content).stateFileDisk =
              pr.2.stateFileDisk := rfl
          exact (ih _).trans (h3.trans (h2.trans h1))

theorem execCreatesInMarkdown_stateFileDisk (env : ExecEnv) (l : List FileChange)
    (w : ExecWorld) :
    (execCreatesInMarkdown env l w).stateFileDisk = w.stateFileDisk := by
  induction l generalizing w with
  | nil => rfl
  | cons fc rest ih => exact (ih _).trans rfl

theorem execUpdatesInScriv_stateFileDisk (env : ExecEnv) (l : List FileChange)
    (w : ExecWorld) :
    (execUpdatesInScriv env l w).stateFileDisk = w.stateFileDisk := by
  induction l generalizing w with
  | nil => rfl
  | cons fc rest ih => exact (ih _).trans rfl

theorem execUpdatesInMarkdown_stateFileDisk (env : ExecEnv) (l : List FileChange)
    (w : ExecWorld) :
    (execUpdatesInMarkdown env l w).stateFileDisk = w.stateFileDisk := by
  induction l generalizing w with
  | nil => rfl
  | cons fc rest ih => exact (ih _).trans rfl

theorem executeOrphanAction_stateFileDisk (env : ExecEnv) (orphan : Orphan)
    (action : DeletionAction) (w : ExecWorld) :
    (executeOrphanAction env orphan action w).1.stateFileDisk = w.stateFileDisk := by
  unfold executeOrphanAction
  split
  · split
    · rfl
    · rfl
  · split
    · split
      · rfl
      · split
        · rename_i content heq w1 e heq2
          have h1 := ensureScrivenerFolder_stateFileDisk env w orphan.path
          rw [heq2] at h1
          exact h1
        · rename_i content heq w1 folderUUID heq2
          have h1 := ensureScrivenerFolder_stateFileDisk env w orphan.path
          rw [heq2] at h1
          split
          · exact h1
          · rename_i pr hpr
            have h2 := CreateDocument_stateFileDisk env w1 orphan.title _ folderUUID true pr hpr
            exact h2.trans h1
    · split
      · rfl
      · rfl
  · rfl

theorem execOrphans_stateFileDisk (env : ExecEnv) (l : List Orphan)
    (w : ExecWorld) :
    (execOrphans env l w).1.stateFileDisk = w.stateFileDisk := by
  induction l generalizing w with
  | nil => rfl
  | cons o rest ih =>
      simp only [execOrphans]
      split
      · rename_i w1 e heq
        have h1 := executeOrphanAction_stateFileDisk env o
          (resolveOrphanAction o env.cfg.defaultDeletionAction env.interactive env.orphanChoice) w
        rw [heq] at h1
        exact h1
      · rename_i w1 heq
        have h1 := executeOrphanAction_stateFileDisk env o
          (resolveOrphanAction o env.cfg.defaultDeletionAction env.interactive env.orphanChoice) w
        rw [heq] at h1
        exact (ih _).trans h1

theorem saveProjectAndState_err (env : ExecEnv) (w w' : ExecWorld) (e : String)
    (h : saveProjectAndState env w = (w', some e)) :
    w'.stateFileDisk = w.stateFileDisk := by
  unfold saveProjectAndState at h
  split at h
  · cases h; rfl
  · split at h
    · cases h
      by_cases hm : w.writerModified <;> simp [writerSaveApply, hm]
    · cases h

theorem saveProjectAndState_ok (env : ExecEnv) (w w' : ExecWorld)
    (h : saveProjectAndState env w = (w', none)) :
    w'.stateFileDisk = some w'.state := by
  unfold saveProjectAndState at h
  split at h
  · cases h
  · split at h
    · cases h
    · cases h; rfl

/-- Claim C3 (amended): `Writer.UpdateDocumentContent` writes the document
content file straight to the external store on disk without marking the
writer dirty, so document-content mutations are not buffered and are
visible before (and regardless of) `Writer.Save`; only binder-structure
changes are buffered and flushed by `Save`.  The true half of the claim:
the sync state file is written only at the very end of a successful run —
any failing run (including a failing `Writer.Save`) leaves it unchanged,
and a successful run persists exactly the final in-memory state. -/
theorem external_write_visibility_and_state_persistence
    (env : ExecEnv) (w : ExecWorld) (docUUID content : String) (useRTF : Bool)
    (plan : Plan) (w' : ExecWorld) (e : String) :
    ((UpdateDocumentContent env w docUUID content useRTF).scrivDisk.contentFiles =
       insertA w.scrivDisk.contentFiles docUUID
         (if useRTF then env.markdownToRTF content else content) ∧
     (UpdateDocumentContent env w docUUID content useRTF).writerModified =
       w.writerModified ∧
     (UpdateDocumentContent env w docUUID content useRTF).scrivDisk.scrivx =
       w.scrivDisk.scrivx) ∧
    (executePlan env plan w = (w', some e) → w'.stateFileDisk = w.stateFileDisk) ∧
    (executePlan env plan w = (w', none) → w'.stateFileDisk = some w'.state) := by
  refine ⟨⟨?_, rfl, rfl⟩, ?_, ?_⟩
  · by_cases h : useRTF <;> simp [UpdateDocumentContent, h]
  · intro h
    unfold executePlan at h
    split at h
    · rename_i w1 e1 heq
      cases h
      have hh := execCreatesInScriv_stateFileDisk env plan.ToCreateInScriv
        (execConflicts env plan.Conflicts w)
      rw [heq] at hh
      exact hh.trans (execConflicts_stateFileDisk env plan.Conflicts w)
    · rename_i w1 heq
      have hA : w1.stateFileDisk = w.stateFileDisk := by
        have hh := execCreatesInScriv_stateFileDisk env plan.ToCreateInScriv
          (execConflicts env plan.Conflicts w)
        rw [heq] at hh
        exact hh.trans (execConflicts_stateFileDisk env plan.Conflicts w)
      have hB : (execUpdatesInMarkdown env plan.ToUpdateInMarkdown
          (execUpdatesInScriv env plan.ToUpdateInScriv
            (execCreatesInMarkdown env plan.ToCreateInMarkdown w1))).stateFileDisk =
          w.stateFileDisk := by
        rw [execUpdatesInMarkdown_stateFileDisk, execUpdatesInScriv_stateFileDisk,
          execCreatesInMarkdown_stateFileDisk]
        exact hA
      split at h
      · rename_i w2 e2 heq2
        cases h
        have h5 := execOrphans_stateFileDisk env plan.Orphans
          (execUpdatesInMarkdown env plan.ToUpdateInMarkdown
            (execUpdatesInScriv env plan.ToUpdateInScriv
              (execCreatesInMarkdown env plan.ToCreateInMarkdown w1)))
        rw [heq2] at h5
        exact h5.trans hB
      · rename_i w2 heq2
        have h5 := execOrphans_stateFileDisk env plan.Orphans
          (execUpdatesInMarkdown env plan.ToUpdateInMarkdown
            (execUpdatesInScriv env plan.ToUpdateInScriv
              (execCreatesInMarkdown env plan.ToCreateInMarkdown w1)))
        rw [heq2] at h5
        exact (saveProjectAndState_err env w2 w' e h).trans (h5.trans hB)
  · intro h
    unfold executePlan at h
    split at h
    · cases h
    · rename_i w1 heq
      split at h
      · cases h
      · rename_i w2 heq2
        exact saveProjectAndState_ok env w2 w' h

/-- Witness for C3 (amended): a run that fails at `Writer.Save` on a world
with a pending binder change leaves the state file unchanged. -/
theorem external_write_visibility_witness :
    (executePlan envC3 planC3 { wC3 with writerModified := true }).1.stateFileDisk =
      wC3.stateFileDisk := by
  have h := external_write_visibility_and_state_persistence envC3
    { wC3 with writerModified := true } "U1" "new" true planC3
    (executePlan envC3 planC3 { wC3 with writerModified := true }).1
    "failed to save Scrivener project"
  exact h.2.1 (by rfl)

/-- Counterexample to C3: with an update-only plan the external content
file on disk already holds the new text, although `Writer.Save` wrote
nothing — the dirty flag stayed clear, the saved project file is
untouched, and the run even succeeds with a project-file write that would
have failed.  External mutations are therefore not buffered until the
persistence call. -/
theorem external_buffering_counterexample :
    (executePlan envC3 planC3 wC3).2 = none ∧
    envC3.scrivxWriteOk = false ∧
    lookupA wC3.scrivDisk.contentFiles "U1" = some "old" ∧
    lookupA (executePlan envC3 planC3 wC3).1.scrivDisk.contentFiles "U1" = some "new" ∧
    (executePlan envC3 planC3 wC3).1.scrivDisk.scrivx = wC3.scrivDisk.scrivx ∧
    (executePlan envC3 planC3 wC3).1.writerModified = false :=
  ⟨rfl, rfl, rfl, rfl, rfl, rfl⟩

theorem lookupA_mem_pair {α : Type} (m : List (String × α)) (k : String) (v : α)
    (h : lookupA m k = some v) : (k, v) ∈ m := by
  induction m with
  | nil => simp [lookupA] at h
  | cons a t ih =>
      by_cases ha : a.1 = k
      · simp only [lookupA, ha, beq_self_eq_true, if_true] at h
        have h2 : a = (k, v) := Prod.ext ha (by injection h)
        rw [← h2]
        exact List.mem_cons_self a t
      · simp only [lookupA, ha] at h
        rw [if_neg (by simp [ha])] at h
        exact List.mem_cons_of_mem a (ih h)

theorem nodup_lookupA_self {α : Type} (m : List (String × α))
    (hnd : (m.map Prod.fst).Nodup) (pr : String × α) (hm : pr ∈ m) :
    lookupA m pr.1 = some pr.2 := by
  induction m with
  | nil => cases hm
  | cons a t ih =>
      rcases List.mem_cons.mp hm with rfl | hm'
      · simp [lookupA]
      · have hker : a.1 ∉ t.map Prod.fst ∧ (t.map Prod.fst).Nodup := by
          simpa [List.nodup_cons] using hnd
        have ha : a.1 ≠ pr.1 := by
          intro he
          exact hker.1 (he ▸ List.mem_map_of_mem Prod.fst hm')
        simp only [lookupA]
        rw [if_neg (by simp [ha])]
        exact ih hker.2 hm'

theorem eraseA_eq_filter {α : Type} (m : List (String × α)) (k : String) :
    eraseA m k = m.filter (fun p => p.1 != k) := by
  induction m with
  | nil => rfl
  | cons a t ih =>
      by_cases ha : a.1 = k
      · simp [eraseA, ha, ih, List.filter]
      · have hb : (a.1 != k) = true := by simp [ha]
        simp [eraseA, ha, ih, List.filter, hb]

theorem detectOrphanStep_eval (lf : List (String × String)) (sb : List Document)
    (st0 : State) (plan0 : Plan) (pr : String × FileState)
    (hag : lookupA st0.files pr.1 = some pr.2) :
    detectOrphanStep lf sb (st0, plan0) pr.1 =
      (match orphanItemFor lf sb pr with
       | some o => (st0, { plan0 with Orphans := plan0.Orphans ++ [o] })
       | none =>
           if orphanKeep lf sb pr then (st0, plan0)
           else (st0.RemoveFile pr.1, plan0)) := by
  have hg : st0.GetFileState pr.1 = some pr.2 := hag
  have hu : st0.GetUUIDForPath pr.1 = pr.2.scrivUUID := by
    simp [State.GetUUIDForPath, hg]
  by_cases hmd : fileExists lf pr.1 <;>
    by_cases hsc : scrivDocExists sb pr.2.scrivUUID <;>
    simp [detectOrphanStep, orphanItemFor, orphanKeep, hu, hg, hmd, hsc, Plan.AddOrphan]

theorem detectOrphans_fold_spec (lf : List (String × String)) (sb : List Document)
    (E : List (String × FileState)) :
    ∀ (st0 : State) (plan0 : Plan),
    (∀ pr ∈ E, lookupA st0.files pr.1 = some pr.2) →
    (E.map Prod.fst).Nodup →
    (List.foldl (detectOrphanStep lf sb) (st0, plan0) (E.map Prod.fst)).2 =
      { plan0 with Orphans := plan0.Orphans ++ E.filterMap (orphanItemFor lf sb) } ∧
    (List.foldl (detectOrphanStep lf sb) (st0, plan0) (E.map Prod.fst)).1.files =
      st0.files.filter (fun pr2 =>
        !(((E.filter (fun pr => !(orphanKeep lf sb pr))).map Prod.fst).contains pr2.1)) ∧
    (∀ p : String, (∀ pr ∈ E, pr.1 = p → orphanKeep lf sb pr = true) →
       lookupA (List.foldl (detectOrphanStep lf sb) (st0, plan0)
         (E.map Prod.fst)).1.deletedFiles p = lookupA st0.deletedFiles p) ∧
    (∀ pr ∈ E, orphanKeep lf sb pr = false →
       lookupA (List.foldl (detectOrphanStep lf sb) (st0, plan0)
         (E.map Prod.fst)).1.deletedFiles pr.1 = some pr.2) := by
  induction E with
  | nil =>
      intro st0 plan0 hag hnd
      refine ⟨by simp, by simp, fun p _ => rfl, fun pr hpr => absurd hpr (by simp)⟩
  | cons pr E' ih =>
      intro st0 plan0 hag hnd
      have hagh := hag pr (List.mem_cons_self _ _)
      have hag' : ∀ pr' ∈ E', lookupA st0.files pr'.1 = some pr'.2 :=
        fun pr' h => hag pr' (List.mem_cons_of_mem _ h)
      have hndc : pr.1 ∉ E'.map Prod.fst ∧ (E'.map Prod.fst).Nodup := by
        simpa [List.nodup_cons] using hnd
      have hfold : List.foldl (detectOrphanStep lf sb) (st0, plan0)
          ((pr :: E').map Prod.fst) =
          List.foldl (detectOrphanStep lf sb)
            (detectOrphanStep lf sb (st0, plan0) pr.1) (E'.map Prod.fst) := by
        simp
      rw [hfold, detectOrphanStep_eval lf sb st0 plan0 pr hagh]
      cases hitem : orphanItemFor lf sb pr with
      | some o =>
          have hkeep : orphanKeep lf sb pr = true := by
            unfold orphanItemFor at hitem
            unfold orphanKeep
            by_cases hmd : fileExists lf pr.1 <;>
              by_cases hsc : scrivDocExists sb pr.2.scrivUUID <;>
              simp [hmd, hsc] at hitem ⊢
          obtain ⟨i1, i2, i3, i4⟩ :=
            ih st0 { plan0 with Orphans := plan0.Orphans ++ [o] } hag' hndc.2
          refine ⟨?_, ?_, ?_, ?_⟩
          · rw [i1]
            simp [List.filterMap_cons, hitem]
          · rw [i2]
            have : (pr :: E').filter (fun pr' => !(orphanKeep lf sb pr')) =
                E'.filter (fun pr' => !(orphanKeep lf sb pr')) := by
              simp [List.filter_cons, hkeep]
            rw [this]
          · intro p hall
            exact i3 p (fun pr' h hp => hall pr' (List.mem_cons_of_mem _ h) hp)
          · intro pr' hpr' hk
            rcases List.mem_cons.mp hpr' with rfl | h
            · rw [hkeep] at hk; cases hk
            · exact i4 pr' h hk
      | none =>
          by_cases hkeep : orphanKeep lf sb pr = true
          · rw [hkeep]
            simp only [if_true]
            obtain ⟨i1, i2, i3, i4⟩ := ih st0 plan0 hag' hndc.2
            refine ⟨?_, ?_, ?_, ?_⟩
            · rw [i1]
              simp [List.filterMap_cons, hitem]
            · rw [i2]
              have : (pr :: E').filter (fun pr' => !(orphanKeep lf sb pr')) =
                  E'.filter (fun pr' => !(orphanKeep lf sb pr')) := by
                simp [List.filter_cons, hkeep]
              rw [this]
            · intro p hall
              exact i3 p (fun pr' h hp => hall pr' (List.mem_cons_of_mem _ h) hp)
            · intro pr' hpr' hk
              rcases List.mem_cons.mp hpr' with rfl | h
              · rw [hkeep] at hk; cases hk
              · exact i4 pr' h hk
          · have hkeep' : orphanKeep lf sb pr = false := by
              simpa using hkeep
            rw [hkeep']
            simp only [Bool.false_eq_true, if_false]
            have hrm : st0.RemoveFile pr.1 =
                { st0 with
                  deletedFiles := insertA st0.deletedFiles pr.1 pr.2
                  files := eraseA st0.files pr.1 } := by
              unfold State.RemoveFile
              rw [hagh]
            have hag'' : ∀ pr' ∈ E',
                lookupA (st0.RemoveFile pr.1).files pr'.1 = some pr'.2 := by
              intro pr' h
              have hne : pr'.1 ≠ pr.1 := by
                intro he
                exact hndc.1 (he ▸ List.mem_map_of_mem Prod.fst h)
              rw [hrm]
              show lookupA (eraseA st0.files pr.1) pr'.1 = some pr'.2
              rw [lookupA_erase_ne _ _ _ hne]
              exact hag' pr' h
            obtain ⟨i1, i2, i3, i4⟩ := ih (st0.RemoveFile pr.1) plan0 hag'' hndc.2
            refine ⟨?_, ?_, ?_, ?_⟩
            · rw [i1]
              simp [List.filterMap_cons, hitem]
            · rw [i2]
              have hfe : (st0.RemoveFile pr.1).files = eraseA st0.files pr.1 := by
                rw [hrm]
              rw [hfe, eraseA_eq_filter, List.filter_filter]
              have hflt : (pr :: E').filter (fun pr' => !(orphanKeep lf sb pr')) =
                  pr :: E'.filter (fun pr' => !(orphanKeep lf sb pr')) := by
                simp [List.filter_cons, hkeep']
              rw [hflt]
              apply List.filter_congr
              intro x _
              simp only [List.map_cons, List.contains_cons, Bool.not_or]
              cases hb2 : (x.1 == pr.1) <;>
                cases hb3 : ((E'.filter (fun pr' => !(orphanKeep lf sb pr'))).map
                    Prod.fst).contains x.1 <;>
                simp [hb2, hb3, bne]
            · intro p hall
              have hne : pr.1 ≠ p := by
                intro he
                have := hall pr (List.mem_cons_self _ _) he
                rw [hkeep'] at this
                cases this
              rw [i3 p (fun pr' h hp => hall pr' (List.mem_cons_of_mem _ h) hp)]
              have hdf : (st0.RemoveFile pr.1).deletedFiles =
                  insertA st0.deletedFiles pr.1 pr.2 := by
                rw [hrm]
              rw [hdf]
              exact lookupA_insert_ne _ _ _ _ (Ne.symm hne)
            · intro pr' hpr' hk
              rcases List.mem_cons.mp hpr' with rfl | h
              · have hall : ∀ pr'' ∈ E', pr''.1 = pr'.1 → orphanKeep lf sb pr'' = true := by
                  intro pr'' h hp
                  exact absurd (hp ▸ List.mem_map_of_mem Prod.fst h) hndc.1
                rw [i3 pr'.1 hall]
                have hdf : (st0.RemoveFile pr'.1).deletedFiles =
                    insertA st0.deletedFiles pr'.1 pr'.2 := by
                  rw [hrm]
                rw [hdf]
                exact lookupA_insert_self _ _ _
              · exact i4 pr' h hk

theorem lookupA_filter_none {α : Type} (m : List (String × α))
    (f : String × α → Bool) (p : String)
    (h : ∀ x : String × α, x.1 = p → f x = false) :
    lookupA (m.filter f) p = none := by
  induction m with
  | nil => rfl
  | cons a t ih =>
      by_cases hfa : f a = true
      · have hne : a.1 ≠ p := fun he => by rw [h a he] at hfa; cases hfa
        have hb : (a.1 == p) = false := by simp [hne]
        simp only [List.filter_cons, hfa, if_true, lookupA, hb]
        simpa using ih
      · have hfa' : f a = false := by simpa using hfa
        simp only [List.filter_cons, hfa', Bool.false_eq_true, if_false]
        exact ih

theorem lookupA_filter_pos {α : Type} (m : List (String × α))
    (f : String × α → Bool) (p : String)
    (h : ∀ x : String × α, x.1 = p → f x = true) :
    lookupA (m.filter f) p = lookupA m p := by
  induction m with
  | nil => rfl
  | cons a t ih =>
      by_cases hap : a.1 = p
      · have hfa : f a = true := h a hap
        simp [List.filter_cons, hfa, lookupA, hap, ih]
      · have hb : (a.1 == p) = false := by simp [hap]
        by_cases hfa : f a = true
        · simp only [List.filter_cons, hfa, if_true, lookupA, hb]
          simpa using ih
        · have hfa' : f a = false := by simpa using hfa
          simp only [List.filter_cons, hfa', Bool.false_eq_true, if_false, lookupA, hb]
          simpa using ih

/-- Claim C6 (amended): a tracked path that exists on neither side is
removed from the live map by orphan detection with no plan item emitted for
it, but it is not purged: `RemoveFile` moves it to the tombstone map, so it
is still reported as previously synced afterwards. -/
theorem detectOrphans_both_missing (lf : List (String × String)) (sb : List Document)
    (st : State) (plan : Plan) (p : String) (fs : FileState)
    (hnd : (st.files.map Prod.fst).Nodup)
    (hf : lookupA st.files p = some fs)
    (hl : fileExists lf p = false)
    (hs : scrivDocExists sb fs.scrivUUID = false) :
    lookupA (detectOrphans lf sb st plan).1.files p = none ∧
    lookupA (detectOrphans lf sb st plan).1.deletedFiles p = some fs ∧
    (detectOrphans lf sb st plan).1.WasPreviouslySynced p = true ∧
    (detectOrphans lf sb st plan).2 =
      { plan with Orphans := plan.Orphans ++ st.files.filterMap (orphanItemFor lf sb) } ∧
    orphanItemFor lf sb (p, fs) = none := by
  have hmem : (p, fs) ∈ st.files := lookupA_mem_pair st.files p fs hf
  have hkeep : orphanKeep lf sb (p, fs) = false := by
    simp [orphanKeep, hl, hs]
  have hitem : orphanItemFor lf sb (p, fs) = none := by
    simp [orphanItemFor, hl, hs]
  have hAT : detectOrphans lf sb st plan =
      List.foldl (detectOrphanStep lf sb) (st, plan) (st.files.map Prod.fst) := rfl
  obtain ⟨i1, i2, i3, i4⟩ := detectOrphans_fold_spec lf sb st.files st plan
    (nodup_lookupA_self st.files hnd) hnd
  have hfl : lookupA (detectOrphans lf sb st plan).1.files p = none := by
    rw [hAT, i2]
    apply lookupA_filter_none
    intro x hx
    have hin : p ∈ (st.files.filter (fun pr => !(orphanKeep lf sb pr))).map Prod.fst := by
      have h2 : ((p, fs) : String × FileState).1 ∈
          (st.files.filter (fun pr => !(orphanKeep lf sb pr))).map Prod.fst :=
        List.mem_map_of_mem Prod.fst (List.mem_filter.mpr ⟨hmem, by simp [hkeep]⟩)
      exact h2
    rw [hx]
    simp [hin]
  have hdl : lookupA (detectOrphans lf sb st plan).1.deletedFiles p = some fs := by
    rw [hAT]
    exact i4 (p, fs) hmem hkeep
  refine ⟨hfl, hdl, ?_, ?_, hitem⟩
  · simp [State.WasPreviouslySynced, hfl, hdl]
  · rw [hAT, i1]

/-- Witness for C6 (amended), at a concrete one-entry state with both sides
gone. -/
theorem detectOrphans_both_missing_witness :
    lookupA (detectOrphans [] [] stC4 NewPlan).1.files "root/d/a.md" = none ∧
    lookupA (detectOrphans [] [] stC4 NewPlan).1.deletedFiles "root/d/a.md" =
      some { scrivUUID := "U1", contentHash := "h0"
             modifiedTime := "T0", lastSynced := "T0" } ∧
    (detectOrphans [] [] stC4 NewPlan).1.WasPreviouslySynced "root/d/a.md" = true := by
  have h := detectOrphans_both_missing [] [] stC4 NewPlan "root/d/a.md"
    { scrivUUID := "U1", contentHash := "h0", modifiedTime := "T0", lastSynced := "T0" }
    (by decide) (by decide) (by decide)
    (by simp [scrivDocExists, GetAllDocuments, flattenDocs])
  exact ⟨h.1, h.2.1, h.2.2.1⟩

/-- Counterexample to C6: after orphan detection on a path missing from
both sides, the path is still tombstoned (not removed entirely) and is
still reported as previously synced; only the "no plan item" half of the
claim holds. -/
theorem detectOrphans_purge_counterexample :
    (detectOrphans [] [] stC4 NewPlan).1.WasPreviouslySynced "root/d/a.md" = true ∧
    lookupA (detectOrphans [] [] stC4 NewPlan).1.deletedFiles "root/d/a.md" =
      some { scrivUUID := "U1", contentHash := "h0"
             modifiedTime := "T0", lastSynced := "T0" } ∧
    (detectOrphans [] [] stC4 NewPlan).2 = NewPlan := by
  have hkeep : orphanKeep [] []
      ("root/d/a.md",
        ({ scrivUUID := "U1", contentHash := "h0"
           modifiedTime := "T0", lastSynced := "T0" } : FileState)) = false := by
    simp [orphanKeep, fileExists, lookupA, scrivDocExists, GetAllDocuments, flattenDocs]
  have hitem : orphanItemFor [] []
      ("root/d/a.md",
        ({ scrivUUID := "U1", contentHash := "h0"
           modifiedTime := "T0", lastSynced := "T0" } : FileState)) = none := by
    simp [orphanItemFor, fileExists, lookupA, scrivDocExists, GetAllDocuments, flattenDocs]
  obtain ⟨i1, i2, i3, i4⟩ := detectOrphans_fold_spec [] [] stC4.files stC4 NewPlan
    (nodup_lookupA_self _ (by decide)) (by decide)
  have hAT : detectOrphans [] [] stC4 NewPlan =
      List.foldl (detectOrphanStep [] []) (stC4, NewPlan) (stC4.files.map Prod.fst) := rfl
  have hdl : lookupA (detectOrphans [] [] stC4 NewPlan).1.deletedFiles "root/d/a.md" =
      some { scrivUUID := "U1", contentHash := "h0"
             modifiedTime := "T0", lastSynced := "T0" } := by
    rw [hAT]
    exact i4 _ (by decide) hkeep
  refine ⟨?_, hdl, ?_⟩
  · simp [State.WasPreviouslySynced, hdl]
  · rw [hAT, i1]
    show ({ NewPlan with
        Orphans := NewPlan.Orphans ++ stC4.files.filterMap (orphanItemFor [] []) } : Plan) =
      NewPlan
    have hempty : stC4.files.filterMap (orphanItemFor [] []) = [] := by
      show List.filterMap (orphanItemFor [] []) stC4.files = []
      rw [show stC4.files = [("root/d/a.md",
        ({ scrivUUID := "U1", contentHash := "h0"
           modifiedTime := "T0", lastSynced := "T0" } : FileState))] from rfl]
      simp [List.filterMap_cons, hitem]
    rw [hempty]
    simp

/-- Claim C4 (amended): executing `delete` on a markdown-located orphan
removes the markdown file and moves (not purges) the path's tracking into
the tombstone set; for a Scrivener-located orphan, deletion is not
implemented — the external store, the writer and the State are untouched
and only a note is printed; and detection labels the orphan of a deleted
local file whose document survives with the surviving side tag
`"scrivener"`, not with the local side. -/
theorem orphan_delete_and_location (env : ExecEnv) (orphan : Orphan) (w : ExecWorld)
    (lf : List (String × String)) (sb : List Document) (st : State) (plan : Plan)
    (p : String) (fs : FileState)
    (hnd : (st.files.map Prod.fst).Nodup)
    (hf : lookupA st.files p = some fs)
    (hl : fileExists lf p = false)
    (hs : scrivDocExists sb fs.scrivUUID = true) :
    (orphan.location = "markdown" →
      executeOrphanAction env orphan DeletionAction.ActionDelete w =
        ({ w with
             localFiles := eraseA w.localFiles orphan.path
             state := w.state.RemoveFile orphan.path
             output := w.output ++ ["  Deleting markdown file: " ++ orphan.path] }, none)) ∧
    (orphan.location ≠ "markdown" →
      executeOrphanAction env orphan DeletionAction.ActionDelete w =
        ({ w with output := w.output ++
             ["  Note: Deleting from Scrivener not yet implemented. Skipping: " ++
               orphan.title] }, none)) ∧
    ({ path := p, location := "scrivener", scrivUUID := fs.scrivUUID
       title := titleFromFilename (baseName p), lastSyncTime := fs.lastSynced } : Orphan) ∈
      (detectOrphans lf sb st plan).2.Orphans := by
  refine ⟨?_, ?_, ?_⟩
  · intro hloc
    simp [executeOrphanAction, hloc]
  · intro hloc
    have hb : (orphan.location == "markdown") = false := by simp [hloc]
    simp [executeOrphanAction, hb]
  · obtain ⟨i1, _, _, _⟩ := detectOrphans_fold_spec lf sb st.files st plan
      (nodup_lookupA_self st.files hnd) hnd
    have hAT : detectOrphans lf sb st plan =
        List.foldl (detectOrphanStep lf sb) (st, plan) (st.files.map Prod.fst) := rfl
    rw [hAT, i1]
    have hitem : orphanItemFor lf sb (p, fs) = some
        { path := p, location := "scrivener", scrivUUID := fs.scrivUUID
          title := titleFromFilename (baseName p), lastSyncTime := fs.lastSynced } := by
      simp [orphanItemFor, hl, hs]
    refine List.mem_append.mpr (Or.inr ?_)
    exact List.mem_filterMap.mpr ⟨(p, fs), lookupA_mem_pair st.files p fs hf, hitem⟩

theorem scrivDocExists_sbC4 : scrivDocExists sbC4 "U1" = true := by
  have h1 : GetAllDocuments sbC4 = sbC4 := by
    simp [GetAllDocuments, flattenDocs, sbC4, Document.IsFolder, Document.DocType]
  unfold scrivDocExists
  rw [h1]
  decide

/-- Witness for C4 (amended): concrete scrivener-located orphan detection
and the unimplemented scrivener-side delete. -/
theorem orphan_delete_and_location_witness :
    (executeOrphanAction envC10 oC4 DeletionAction.ActionDelete wC4 =
      ({ wC4 with output := wC4.output ++
           ["  Note: Deleting from Scrivener not yet implemented. Skipping: " ++
             oC4.title] }, none)) ∧
    ({ path := "root/d/a.md", location := "scrivener", scrivUUID := "U1"
       title := titleFromFilename (baseName "root/d/a.md"), lastSyncTime := "T0" } : Orphan) ∈
      (detectOrphans [] sbC4 stC4 NewPlan).2.Orphans := by
  have h := orphan_delete_and_location envC10 oC4 wC4 [] sbC4 stC4 NewPlan
    "root/d/a.md"
    { scrivUUID := "U1", contentHash := "h0", modifiedTime := "T0", lastSynced := "T0" }
    (by decide) (by decide) (by decide) scrivDocExists_sbC4
  exact ⟨h.2.1 (by decide), h.2.2⟩

/-- Counterexample to C4: for a previously tracked path whose local file
was deleted while the Scrivener document remains, detection tags the
orphan `"scrivener"` (the surviving side), not the local side; and the
delete action on that orphan removes nothing — the Scrivener store, the
writer binder and the State are all left unchanged. -/
theorem orphan_delete_counterexample :
    (detectOrphans [] sbC4 stC4 NewPlan).2.Orphans = [oC4] ∧
    oC4.location = "scrivener" ∧
    (executeOrphanAction envC10 oC4 DeletionAction.ActionDelete wC4).1.scrivDisk =
      wC4.scrivDisk ∧
    (executeOrphanAction envC10 oC4 DeletionAction.ActionDelete wC4).1.writerBinder =
      wC4.writerBinder ∧
    (executeOrphanAction envC10 oC4 DeletionAction.ActionDelete wC4).1.state = wC4.state ∧
    (executeOrphanAction envC10 oC4 DeletionAction.ActionDelete wC4).2 = none := by
  refine ⟨?_, rfl, rfl, rfl, rfl, rfl⟩
  have hitem : orphanItemFor [] sbC4
      ("root/d/a.md",
        ({ scrivUUID := "U1", contentHash := "h0"
           modifiedTime := "T0", lastSynced := "T0" } : FileState)) = some oC4 := by
    simp [orphanItemFor, fileExists, lookupA, scrivDocExists_sbC4, oC4]
  obtain ⟨i1, _, _, _⟩ := detectOrphans_fold_spec [] sbC4 stC4.files stC4 NewPlan
    (nodup_lookupA_self _ (by decide)) (by decide)
  have hAT : detectOrphans [] sbC4 stC4 NewPlan =
      List.foldl (detectOrphanStep [] sbC4) (stC4, NewPlan) (stC4.files.map Prod.fst) := rfl
  rw [hAT, i1]
  show NewPlan.Orphans ++ stC4.files.filterMap (orphanItemFor [] sbC4) = [oC4]
  rw [show stC4.files = [("root/d/a.md",
    ({ scrivUUID := "U1", contentHash := "h0"
       modifiedTime := "T0", lastSynced := "T0" } : FileState))] from rfl]
  simp [List.filterMap_cons, hitem, NewPlan]

theorem classifyMatched_createInScriv (hash : String → String) (st : State)
    (plan : Plan) (mdPath title mdContent : String) (doc : Document) :
    (classifyMatched hash st plan mdPath title mdContent doc).ToCreateInScriv =
      plan.ToCreateInScriv := by
  unfold classifyMatched
  cases st.DetectConflict mdPath (hash mdContent) doc.UUID (hash doc.Content) <;>
    simp [Plan.AddConflict, Plan.AddUpdateInScriv, Plan.AddUpdateInMarkdown]

theorem classifyMatched_createInMarkdown (hash : String → String) (st : State)
    (plan : Plan) (mdPath title mdContent : String) (doc : Document) :
    (classifyMatched hash st plan mdPath title mdContent doc).ToCreateInMarkdown =
      plan.ToCreateInMarkdown := by
  unfold classifyMatched
  cases st.DetectConflict mdPath (hash mdContent) doc.UUID (hash doc.Content) <;>
    simp [Plan.AddConflict, Plan.AddUpdateInScriv, Plan.AddUpdateInMarkdown]

theorem mdStep_createInScriv (hash : String → String) (st : State)
    (lf : List (String × String)) (acc : Plan × List (String × Document)) (q : String) :
    (detectMdFileStep hash st lf acc q).1.ToCreateInScriv = acc.1.ToCreateInScriv ∨
    (st.WasPreviouslySynced q = false ∧
     (detectMdFileStep hash st lf acc q).1.ToCreateInScriv =
       acc.1.ToCreateInScriv ++
         [{ markdownPath := q, scrivUUID := "", title := titleFromFilename (baseName q),
            content := (lookupA lf q).getD "" }]) := by
  unfold detectMdFileStep
  cases hdoc : lookupA acc.2 ((titleFromFilename (baseName q)).toLower) with
  | none =>
      by_cases hw : st.WasPreviouslySynced q
      · left; simp [hw]
      · right
        refine ⟨by simpa using hw, ?_⟩
        simp [hw, Plan.AddCreateInScriv]
  | some doc =>
      left
      exact classifyMatched_createInScriv hash st acc.1 q (titleFromFilename (baseName q))
        ((lookupA lf q).getD "") doc

theorem mdStep_createInMarkdown (hash : String → String) (st : State)
    (lf : List (String × String)) (acc : Plan × List (String × Document)) (q : String) :
    (detectMdFileStep hash st lf acc q).1.ToCreateInMarkdown = acc.1.ToCreateInMarkdown := by
  unfold detectMdFileStep
  cases hdoc : lookupA acc.2 ((titleFromFilename (baseName q)).toLower) with
  | none =>
      by_cases hw : st.WasPreviouslySynced q <;> simp [hw, Plan.AddCreateInScriv]
  | some doc =>
      exact classifyMatched_createInMarkdown hash st acc.1 q (titleFromFilename (baseName q))
        ((lookupA lf q).getD "") doc

theorem mdStep_docMap_none (hash : String → String) (st : State)
    (lf : List (String × String)) (acc : Plan × List (String × Document)) (q : String)
    (k : String) (h : lookupA acc.2 k = none) :
    lookupA (detectMdFileStep hash st lf acc q).2 k = none := by
  unfold detectMdFileStep
  cases hdoc : lookupA acc.2 ((titleFromFilename (baseName q)).toLower) with
  | none =>
      by_cases hw : st.WasPreviouslySynced q <;> simp [hw, h]
  | some doc =>
      show lookupA (eraseA acc.2 ((titleFromFilename (baseName q)).toLower)) k = none
      by_cases hk : k = (titleFromFilename (baseName q)).toLower
      · rw [hk]
        exact lookupA_erase_self _ _
      · rw [lookupA_erase_ne _ _ _ hk]
        exact h

theorem mdStep_docMap_ne (hash : String → String) (st : State)
    (lf : List (String × String)) (acc : Plan × List (String × Document)) (q : String)
    (k : String) (hne : (titleFromFilename (baseName q)).toLower ≠ k) :
    lookupA (detectMdFileStep hash st lf acc q).2 k = lookupA acc.2 k := by
  unfold detectMdFileStep
  cases hdoc : lookupA acc.2 ((titleFromFilename (baseName q)).toLower) with
  | none =>
      by_cases hw : st.WasPreviouslySynced q <;> simp [hw]
  | some doc =>
      show lookupA (eraseA acc.2 ((titleFromFilename (baseName q)).toLower)) k = lookupA acc.2 k
      exact lookupA_erase_ne _ _ _ (Ne.symm hne)

theorem mdFold_createInMarkdown (hash : String → String) (st : State)
    (lf : List (String × String)) (l : List String) :
    ∀ acc : Plan × List (String × Document),
      (l.foldl (detectMdFileStep hash st lf) acc).1.ToCreateInMarkdown =
        acc.1.ToCreateInMarkdown := by
  induction l with
  | nil => intro acc; rfl
  | cons q rest ih =>
      intro acc
      rw [List.foldl_cons, ih]
      exact mdStep_createInMarkdown hash st lf acc q

theorem mdFold_createInScriv_mono (hash : String → String) (st : State)
    (lf : List (String × String)) (l : List String) (fc : FileChange) :
    ∀ acc : Plan × List (String × Document), fc ∈ acc.1.ToCreateInScriv →
      fc ∈ (l.foldl (detectMdFileStep hash st lf) acc).1.ToCreateInScriv := by
  induction l with
  | nil => intro acc h; exact h
  | cons q rest ih =>
      intro acc h
      rw [List.foldl_cons]
      apply ih
      rcases mdStep_createInScriv hash st lf acc q with he | ⟨_, he⟩
      · rw [he]; exact h
      · rw [he]; exact List.mem_append_left _ h

theorem mdFold_createInScriv_sound (hash : String → String) (st : State)
    (lf : List (String × String)) (l : List String) (fc : FileChange) :
    ∀ acc : Plan × List (String × Document),
      fc ∈ (l.foldl (detectMdFileStep hash st lf) acc).1.ToCreateInScriv →
      fc ∈ acc.1.ToCreateInScriv ∨ st.WasPreviouslySynced fc.markdownPath = false := by
  induction l with
  | nil => intro acc h; exact Or.inl h
  | cons q rest ih =>
      intro acc h
      rw [List.foldl_cons] at h
      rcases ih _ h with h2 | h2
      · rcases mdStep_createInScriv hash st lf acc q with he | ⟨hw, he⟩
        · rw [he] at h2; exact Or.inl h2
        · rw [he] at h2
          rcases List.mem_append.mp h2 with h3 | h3
          · exact Or.inl h3
          · right
            have h4 : fc = { markdownPath := q, scrivUUID := ""
                             title := titleFromFilename (baseName q)
                             content := (lookupA lf q).getD "" } := by
              simpa using h3
            rw [h4]
            exact hw
      · exact Or.inr h2

theorem mdFold_docMap_none (hash : String → String) (st : State)
    (lf : List (String × String)) (l : List String) (k : String) :
    ∀ acc : Plan × List (String × Document), lookupA acc.2 k = none →
      lookupA (l.foldl (detectMdFileStep hash st lf) acc).2 k = none := by
  induction l with
  | nil => intro acc h; exact h
  | cons q rest ih =>
      intro acc h
      rw [List.foldl_cons]
      exact ih _ (mdStep_docMap_none hash st lf acc q k h)

theorem mdFold_docMap_ne (hash : String → String) (st : State)
    (lf : List (String × String)) (l : List String) (k : String) :
    ∀ acc : Plan × List (String × Document),
      (∀ q ∈ l, (titleFromFilename (baseName q)).toLower ≠ k) →
      lookupA (l.foldl (detectMdFileStep hash st lf) acc).2 k = lookupA acc.2 k := by
  induction l with
  | nil => intro acc _; rfl
  | cons q rest ih =>
      intro acc hne
      rw [List.foldl_cons, ih _ fun r hr => hne r (List.mem_cons_of_mem q hr)]
      exact mdStep_docMap_ne hash st lf acc q k (hne q (List.mem_cons_self q rest))

theorem mdFold_create_complete (hash : String → String) (st : State)
    (lf : List (String × String)) (l : List String) (p : String)
    (hw : st.WasPreviouslySynced p = false) :
    ∀ acc : Plan × List (String × Document), p ∈ l →
      lookupA acc.2 ((titleFromFilename (baseName p)).toLower) = none →
      ({ markdownPath := p, scrivUUID := "", title := titleFromFilename (baseName p),
         content := (lookupA lf p).getD "" } : FileChange) ∈
        (l.foldl (detectMdFileStep hash st lf) acc).1.ToCreateInScriv := by
  induction l with
  | nil => intro acc hp _; cases hp
  | cons q rest ih =>
      intro acc hp hnone
      rw [List.foldl_cons]
      by_cases hq : p = q
      · subst hq
        apply mdFold_createInScriv_mono
        unfold detectMdFileStep
        rw [hnone]
        simp [hw, Plan.AddCreateInScriv]
      · rcases List.mem_cons.mp hp with h1 | h1
        · exact absurd h1 hq
        · exact ih _ h1 (mdStep_docMap_none hash st lf acc q _ hnone)

theorem leftoverStep_createInScriv (st : State) (mdDir : String) (plan : Plan)
    (entry : String × Document) :
    (detectScrivLeftoverStep st mdDir plan entry).ToCreateInScriv =
      plan.ToCreateInScriv := by
  unfold detectScrivLeftoverStep
  by_cases hf : entry.2.IsFolder
  · simp [hf]
  · by_cases hw : st.WasPreviouslySynced
        (mdDir ++ "/" ++ sanitizeFilename entry.2.Title ++ ".md") <;>
      simp [hf, hw, Plan.AddCreateInMarkdown]

theorem leftoverStep_createInMarkdown (st : State) (mdDir : String) (plan : Plan)
    (entry : String × Document) :
    (detectScrivLeftoverStep st mdDir plan entry).ToCreateInMarkdown =
      plan.ToCreateInMarkdown ∨
    (st.WasPreviouslySynced (mdDir ++ "/" ++ sanitizeFilename entry.2.Title ++ ".md") = false ∧
     (detectScrivLeftoverStep st mdDir plan entry).ToCreateInMarkdown =
       plan.ToCreateInMarkdown ++
         [{ markdownPath := mdDir ++ "/" ++ sanitizeFilename entry.2.Title ++ ".md"
            scrivUUID := entry.2.UUID, title := entry.2.Title
            content := entry.2.Content }]) := by
  unfold detectScrivLeftoverStep
  by_cases hf : entry.2.IsFolder
  · left; simp [hf]
  · by_cases hw : st.WasPreviouslySynced
        (mdDir ++ "/" ++ sanitizeFilename entry.2.Title ++ ".md")
    · left; simp [hf, hw]
    · right
      refine ⟨by simpa using hw, ?_⟩
      simp [hf, hw, Plan.AddCreateInMarkdown]

theorem leftoverFold_createInScriv (st : State) (mdDir : String)
    (entries : List (String × Document)) :
    ∀ plan : Plan,
      (entries.foldl (detectScrivLeftoverStep st mdDir) plan).ToCreateInScriv =
        plan.ToCreateInScriv := by
  induction entries with
  | nil => intro plan; rfl
  | cons e rest ih =>
      intro plan
      rw [List.foldl_cons, ih]
      exact leftoverStep_createInScriv st mdDir plan e

theorem leftoverFold_createInMarkdown_mono (st : State) (mdDir : String)
    (entries : List (String × Document)) (fc : FileChange) :
    ∀ plan : Plan, fc ∈ plan.ToCreateInMarkdown →
      fc ∈ (entries.foldl (detectScrivLeftoverStep st mdDir) plan).ToCreateInMarkdown := by
  induction entries with
  | nil => intro plan h; exact h
  | cons e rest ih =>
      intro plan h
      rw [List.foldl_cons]
      apply ih
      rcases leftoverStep_createInMarkdown st mdDir plan e with he | ⟨_, he⟩
      · rw [he]; exact h
      · rw [he]; exact List.mem_append_left _ h

theorem leftoverFold_createInMarkdown_sound (st : State) (mdDir : String)
    (entries : List (String × Document)) (fc : FileChange) :
    ∀ plan : Plan,
      fc ∈ (entries.foldl (detectScrivLeftoverStep st mdDir) plan).ToCreateInMarkdown →
      fc ∈ plan.ToCreateInMarkdown ∨ st.WasPreviouslySynced fc.markdownPath = false := by
  induction entries with
  | nil => intro plan h; exact Or.inl h
  | cons e rest ih =>
      intro plan h
      rw [List.foldl_cons] at h
      rcases ih _ h with h2 | h2
      · rcases leftoverStep_createInMarkdown st mdDir plan e with he | ⟨hw, he⟩
        · rw [he] at h2; exact Or.inl h2
        · rw [he] at h2
          rcases List.mem_append.mp h2 with h3 | h3
          · exact Or.inl h3
          · right
            have h4 : fc = { markdownPath := mdDir ++ "/" ++ sanitizeFilename e.2.Title ++ ".md"
                             scrivUUID := e.2.UUID, title := e.2.Title
                             content := e.2.Content } := by
              simpa using h3
            rw [h4]
            exact hw
      · exact Or.inr h2

theorem leftoverFold_complete (st : State) (mdDir : String)
    (entries : List (String × Document)) (entry : String × Document)
    (hf : entry.2.IsFolder = false)
    (hw : st.WasPreviouslySynced
        (mdDir ++ "/" ++ sanitizeFilename entry.2.Title ++ ".md") = false) :
    ∀ plan : Plan, entry ∈ entries →
      ({ markdownPath := mdDir ++ "/" ++ sanitizeFilename entry.2.Title ++ ".md"
         scrivUUID := entry.2.UUID, title := entry.2.Title
         content := entry.2.Content } : FileChange) ∈
        (entries.foldl (detectScrivLeftoverStep st mdDir) plan).ToCreateInMarkdown := by
  induction entries with
  | nil => intro plan hp; cases hp
  | cons e rest ih =>
      intro plan hp
      rw [List.foldl_cons]
      rcases List.mem_cons.mp hp with h1 | h1
      · subst h1
        apply leftoverFold_createInMarkdown_mono
        unfold detectScrivLeftoverStep
        simp [hf, hw, Plan.AddCreateInMarkdown]
      · exact ih _ h1

theorem detectChangesForMapping_unfold (hash : String → String) (st : State)
    (mdRoot : String) (lf : List (String × String)) (sb : List Document)
    (mapping : FolderMapping) (plan : Plan) :
    detectChangesForMapping hash st mdRoot lf sb mapping plan =
      ((getMarkdownFiles lf (mdRoot ++ "/" ++ mapping.markdownDir)).foldl
          (detectMdFileStep hash st lf)
          (plan, buildScrivDocMap (scrivFolderDocs sb mapping))).2.foldl
        (detectScrivLeftoverStep st (mdRoot ++ "/" ++ mapping.markdownDir))
        ((getMarkdownFiles lf (mdRoot ++ "/" ++ mapping.markdownDir)).foldl
          (detectMdFileStep hash st lf)
          (plan, buildScrivDocMap (scrivFolderDocs sb mapping))).1 := rfl

/-- Claim C8: under a mapping, create items are queued exactly for
never-previously-synced paths.  Every `ToCreateInScriv` and every
`ToCreateInMarkdown` item of the detected plan concerns a path that is
neither live nor tombstoned in State — so a previously synced path gets no
create item of any kind.  Conversely, a local markdown file whose title
matches no document in the mapping's folder map is queued as
`ToCreateInScriv` whenever it was never synced, and a mapped non-folder
document whose lowercased title matches no local file's is queued as
`ToCreateInMarkdown` whenever its derived local path was never synced. -/
theorem unmatched_creates_iff_never_synced (hash : String → String) (st : State)
    (mdRoot : String) (lf : List (String × String)) (sb : List Document)
    (mapping : FolderMapping) :
    (∀ fc ∈ (detectChangesForMapping hash st mdRoot lf sb mapping NewPlan).ToCreateInScriv,
        st.WasPreviouslySynced fc.markdownPath = false) ∧
    (∀ fc ∈ (detectChangesForMapping hash st mdRoot lf sb mapping NewPlan).ToCreateInMarkdown,
        st.WasPreviouslySynced fc.markdownPath = false) ∧
    (∀ p ∈ getMarkdownFiles lf (mdRoot ++ "/" ++ mapping.markdownDir),
       lookupA (buildScrivDocMap (scrivFolderDocs sb mapping))
           ((titleFromFilename (baseName p)).toLower) = none →
       st.WasPreviouslySynced p = false →
       ({ markdownPath := p, scrivUUID := "", title := titleFromFilename (baseName p),
          content := (lookupA lf p).getD "" } : FileChange) ∈
         (detectChangesForMapping hash st mdRoot lf sb mapping NewPlan).ToCreateInScriv) ∧
    (∀ k : String, ∀ doc : Document,
       lookupA (buildScrivDocMap (scrivFolderDocs sb mapping)) k = some doc →
       (∀ q ∈ getMarkdownFiles lf (mdRoot ++ "/" ++ mapping.markdownDir),
          (titleFromFilename (baseName q)).toLower ≠ k) →
       doc.IsFolder = false →
       st.WasPreviouslySynced
           (mdRoot ++ "/" ++ mapping.markdownDir ++ "/" ++
             sanitizeFilename doc.Title ++ ".md") = false →
       ({ markdownPath := mdRoot ++ "/" ++ mapping.markdownDir ++ "/" ++
            sanitizeFilename doc.Title ++ ".md"
          scrivUUID := doc.UUID, title := doc.Title
          content := doc.Content } : FileChange) ∈
         (detectChangesForMapping hash st mdRoot lf sb mapping NewPlan).ToCreateInMarkdown) := by
  refine ⟨?_, ?_, ?_, ?_⟩
  · intro fc hmem
    rw [detectChangesForMapping_unfold, leftoverFold_createInScriv] at hmem
    rcases mdFold_createInScriv_sound hash st lf _ fc _ hmem with h | h
    · simp [NewPlan] at h
    · exact h
  · intro fc hmem
    rw [detectChangesForMapping_unfold] at hmem
    rcases leftoverFold_createInMarkdown_sound st _ _ fc _ hmem with h | h
    · rw [mdFold_createInMarkdown] at h
      simp [NewPlan] at h
    · exact h
  · intro p hp hnone hw
    rw [detectChangesForMapping_unfold, leftoverFold_createInScriv]
    exact mdFold_create_complete hash st lf _ p hw _ hp hnone
  · intro k doc hk hnomd hf hw
    rw [detectChangesForMapping_unfold]
    have hsurvive : lookupA ((getMarkdownFiles lf (mdRoot ++ "/" ++ mapping.markdownDir)).foldl
        (detectMdFileStep hash st lf)
        (NewPlan, buildScrivDocMap (scrivFolderDocs sb mapping))).2 k = some doc := by
      rw [mdFold_docMap_ne hash st lf _ k _ hnomd]
      exact hk
    exact leftoverFold_complete st _ _ (k, doc) hf hw _ (lookupA_mem_pair _ k doc hsurvive)

theorem scrivFolderDocs_nil (mapping : FolderMapping) :
    scrivFolderDocs [] mapping = [] := by
  simp [scrivFolderDocs, findFolderInDocs]

/-- Witness for C8: with an empty Scrivener binder, a single never-synced
markdown file is queued for creation in Scrivener, and the state is indeed
one in which the path was never synced. -/
theorem unmatched_creates_iff_never_synced_witness :
    NewState.WasPreviouslySynced "root/d/a.md" = false ∧
    ({ markdownPath := "root/d/a.md", scrivUUID := ""
       title := titleFromFilename (baseName "root/d/a.md")
       content := (lookupA [("root/d/a.md", "hello")] "root/d/a.md").getD "" } : FileChange) ∈
      (detectChangesForMapping (fun s => s) NewState "root" [("root/d/a.md", "hello")] []
         mapC8 NewPlan).ToCreateInScriv :=
  ⟨by decide,
   (unmatched_creates_iff_never_synced (fun s => s) NewState "root"
       [("root/d/a.md", "hello")] [] mapC8).2.2.1 "root/d/a.md" (by decide)
     (by rw [scrivFolderDocs_nil]; rfl) (by decide)⟩

theorem lookupA_isSome_of_mem_keys {α : Type} (m : List (String × α)) (k : String)
    (h : k ∈ m.map Prod.fst) : (lookupA m k).isSome = true := by
  induction m with
  | nil => cases h
  | cons a t ih =>
      by_cases ha : a.1 = k
      · simp [lookupA, ha]
      · rw [List.map_cons] at h
        rcases List.mem_cons.mp h with h1 | h1
        · exact absurd h1.symm ha
        · simp only [lookupA]
          rw [if_neg (by simp [ha])]
          exact ih h1

theorem lookupA_filter_of_none {α : Type} (m : List (String × α))
    (f : String × α → Bool) (p : String) (h : lookupA m p = none) :
    lookupA (m.filter f) p = none := by
  induction m with
  | nil => rfl
  | cons a t ih =>
      cases hb : (a.1 == p) with
      | true =>
          rw [show lookupA (a :: t) p = some a.2 by simp [lookupA, hb]] at h
          cases h
      | false =>
          have ht : lookupA t p = none := by
            rw [show lookupA (a :: t) p = lookupA t p by simp [lookupA, hb]] at h
            exact h
          by_cases hfa : f a = true
          · rw [show (a :: t).filter f = a :: t.filter f by simp [List.filter_cons, hfa]]
            simp only [lookupA, hb, Bool.false_eq_true, if_false]
            exact ih ht
          · have hfa' : f a = false := by simpa using hfa
            rw [show (a :: t).filter f = t.filter f by simp [List.filter_cons, hfa']]
            exact ih ht

theorem filter_true_of_all {α : Type} (l : List α) (f : α → Bool)
    (h : ∀ a ∈ l, f a = true) : l.filter f = l := by
  induction l with
  | nil => rfl
  | cons a t ih =>
      rw [show (a :: t).filter f = a :: t.filter f by
            simp [List.filter_cons, h a (List.mem_cons_self a t)],
          ih fun b hb => h b (List.mem_cons_of_mem a hb)]

theorem filterMap_filter_eq {α β : Type} (l : List α) (f : α → Bool) (g : α → Option β)
    (h : ∀ a ∈ l, f a = false → g a = none) :
    (l.filter f).filterMap g = l.filterMap g := by
  induction l with
  | nil => rfl
  | cons a t ih =>
      by_cases hf : f a = true
      · rw [show (a :: t).filter f = a :: t.filter f by simp [List.filter_cons, hf],
            List.filterMap_cons, List.filterMap_cons,
            ih fun b hb hfb => h b (List.mem_cons_of_mem a hb) hfb]
      · have hfa : f a = false := by simpa using hf
        have hga : g a = none := h a (List.mem_cons_self a t) hfa
        rw [show (a :: t).filter f = t.filter f by simp [List.filter_cons, hfa],
            List.filterMap_cons, hga,
            ih fun b hb hfb => h b (List.mem_cons_of_mem a hb) hfb]

theorem orphanItemFor_none_of_not_keep (lf : List (String × String))
    (sb : List Document) (pr : String × FileState)
    (h : orphanKeep lf sb pr = false) :
    orphanItemFor lf sb pr = none := by
  unfold orphanKeep at h
  unfold orphanItemFor
  by_cases hmd : fileExists lf pr.1 <;>
    by_cases hsc : scrivDocExists sb pr.2.scrivUUID <;>
    simp [hmd, hsc] at h ⊢

theorem getMarkdownFiles_exists (lf : List (String × String)) (dir : String)
    (q : String) (h : q ∈ getMarkdownFiles lf dir) : fileExists lf q = true := by
  unfold getMarkdownFiles at h
  have h1 : q ∈ lf.map Prod.fst := (List.mem_filter.mp h).1
  exact lookupA_isSome_of_mem_keys lf q h1

theorem classifyMatched_congr (hash : String → String) (s1 s2 : State)
    (plan : Plan) (mdPath title mdContent : String) (doc : Document)
    (hG : s2.GetFileState mdPath = s1.GetFileState mdPath)
    (hD : s2.GetDeletedFileState mdPath = s1.GetDeletedFileState mdPath) :
    classifyMatched hash s2 plan mdPath title mdContent doc =
      classifyMatched hash s1 plan mdPath title mdContent doc := by
  unfold classifyMatched
  rw [detectConflict_congr s2 s1 mdPath hG hD]

theorem detectMdFileStep_congr (hash : String → String) (s1 s2 : State)
    (lf : List (String × String)) (acc : Plan × List (String × Document)) (q : String)
    (hW : s2.WasPreviouslySynced q = s1.WasPreviouslySynced q)
    (hG : s2.GetFileState q = s1.GetFileState q)
    (hD : s2.GetDeletedFileState q = s1.GetDeletedFileState q) :
    detectMdFileStep hash s2 lf acc q = detectMdFileStep hash s1 lf acc q := by
  unfold detectMdFileStep
  cases hdoc : lookupA acc.2 ((titleFromFilename (baseName q)).toLower) with
  | none => rw [hW]
  | some doc =>
      show (classifyMatched hash s2 acc.1 q (titleFromFilename (baseName q))
              ((lookupA lf q).getD "") doc,
            eraseA acc.2 ((titleFromFilename (baseName q)).toLower)) =
          (classifyMatched hash s1 acc.1 q (titleFromFilename (baseName q))
              ((lookupA lf q).getD "") doc,
            eraseA acc.2 ((titleFromFilename (baseName q)).toLower))
      rw [classifyMatched_congr hash s1 s2 acc.1 q (titleFromFilename (baseName q))
            ((lookupA lf q).getD "") doc hG hD]

theorem mdFold_congr (hash : String → String) (s1 s2 : State)
    (lf : List (String × String)) (l : List String) :
    (∀ q ∈ l, s2.WasPreviouslySynced q = s1.WasPreviouslySynced q ∧
       s2.GetFileState q = s1.GetFileState q ∧
       s2.GetDeletedFileState q = s1.GetDeletedFileState q) →
    ∀ acc : Plan × List (String × Document),
      l.foldl (detectMdFileStep hash s2 lf) acc =
        l.foldl (detectMdFileStep hash s1 lf) acc := by
  induction l with
  | nil => intro _ acc; rfl
  | cons q rest ih =>
      intro h acc
      rw [List.foldl_cons, List.foldl_cons,
        detectMdFileStep_congr hash s1 s2 lf acc q (h q (List.mem_cons_self q rest)).1
          (h q (List.mem_cons_self q rest)).2.1 (h q (List.mem_cons_self q rest)).2.2]
      exact ih (fun r hr => h r (List.mem_cons_of_mem q hr)) _

theorem leftoverStep_congr (s1 s2 : State) (mdDir : String)
    (hW : ∀ p : String, s2.WasPreviouslySynced p = s1.WasPreviouslySynced p)
    (plan : Plan) (entry : String × Document) :
    detectScrivLeftoverStep s2 mdDir plan entry =
      detectScrivLeftoverStep s1 mdDir plan entry := by
  simp only [detectScrivLeftoverStep]
  rw [hW]

theorem leftoverFold_congr (s1 s2 : State) (mdDir : String)
    (hW : ∀ p : String, s2.WasPreviouslySynced p = s1.WasPreviouslySynced p)
    (entries : List (String × Document)) :
    ∀ plan : Plan,
      entries.foldl (detectScrivLeftoverStep s2 mdDir) plan =
        entries.foldl (detectScrivLeftoverStep s1 mdDir) plan := by
  induction entries with
  | nil => intro plan; rfl
  | cons e rest ih =>
      intro plan
      rw [List.foldl_cons, List.foldl_cons, leftoverStep_congr s1 s2 mdDir hW plan e]
      exact ih _

theorem detectChangesForMapping_congr (hash : String → String) (s1 s2 : State)
    (mdRoot : String) (lf : List (String × String)) (sb : List Document)
    (mapping : FolderMapping)
    (hW : ∀ p : String, s2.WasPreviouslySynced p = s1.WasPreviouslySynced p)
    (hGD : ∀ p : String, fileExists lf p = true →
       s2.GetFileState p = s1.GetFileState p ∧
       s2.GetDeletedFileState p = s1.GetDeletedFileState p) :
    ∀ plan : Plan,
      detectChangesForMapping hash s2 mdRoot lf sb mapping plan =
        detectChangesForMapping hash s1 mdRoot lf sb mapping plan := by
  intro plan
  rw [detectChangesForMapping_unfold, detectChangesForMapping_unfold]
  have hmd : ∀ q ∈ getMarkdownFiles lf (mdRoot ++ "/" ++ mapping.markdownDir),
      s2.WasPreviouslySynced q = s1.WasPreviouslySynced q ∧
      s2.GetFileState q = s1.GetFileState q ∧
      s2.GetDeletedFileState q = s1.GetDeletedFileState q := by
    intro q hq
    have hex := getMarkdownFiles_exists lf _ q hq
    exact ⟨hW q, (hGD q hex).1, (hGD q hex).2⟩
  rw [mdFold_congr hash s1 s2 lf _ hmd]
  exact leftoverFold_congr s1 s2 _ hW _ _

theorem mappingFold_congr (hash : String → String) (s1 s2 : State)
    (mdRoot : String) (lf : List (String × String)) (sb : List Document)
    (hW : ∀ p : String, s2.WasPreviouslySynced p = s1.WasPreviouslySynced p)
    (hGD : ∀ p : String, fileExists lf p = true →
       s2.GetFileState p = s1.GetFileState p ∧
       s2.GetDeletedFileState p = s1.GetDeletedFileState p)
    (maps : List FolderMapping) :
    ∀ plan : Plan,
      maps.foldl (fun plan mapping =>
          detectChangesForMapping hash s2 mdRoot lf sb mapping plan) plan =
        maps.foldl (fun plan mapping =>
          detectChangesForMapping hash s1 mdRoot lf sb mapping plan) plan := by
  induction maps with
  | nil => intro plan; rfl
  | cons mp rest ih =>
      intro plan
      rw [List.foldl_cons, List.foldl_cons,
        detectChangesForMapping_congr hash s1 s2 mdRoot lf sb mp hW hGD plan]
      exact ih _

theorem detectOrphans_no_removal (lf : List (String × String)) (sb : List Document)
    (E : List (String × FileState)) :
    ∀ (st0 : State) (plan0 : Plan),
      (∀ pr ∈ E, lookupA st0.files pr.1 = some pr.2) →
      (∀ pr ∈ E, orphanKeep lf sb pr = true) →
      (List.foldl (detectOrphanStep lf sb) (st0, plan0) (E.map Prod.fst)).1 = st0 := by
  induction E with
  | nil => intro st0 plan0 _ _; rfl
  | cons pr E' ih =>
      intro st0 plan0 hag hkeep
      have hagh := hag pr (List.mem_cons_self _ _)
      rw [List.map_cons, List.foldl_cons, detectOrphanStep_eval lf sb st0 plan0 pr hagh]
      have hk := hkeep pr (List.mem_cons_self _ _)
      cases hitem : orphanItemFor lf sb pr with
      | some o =>
          exact ih st0 _ (fun pr' h => hag pr' (List.mem_cons_of_mem _ h))
            (fun pr' h => hkeep pr' (List.mem_cons_of_mem _ h))
      | none =>
          rw [hk]
          exact ih st0 _ (fun pr' h => hag pr' (List.mem_cons_of_mem _ h))
            (fun pr' h => hkeep pr' (List.mem_cons_of_mem _ h))

theorem lookupA_filter_contains_pos {α : Type} (m : List (String × α)) (F : List String)
    (p : String) (h : F.contains p = false) :
    lookupA (m.filter (fun pr => !(F.contains pr.1))) p = lookupA m p := by
  apply lookupA_filter_pos
  intro x hx
  show (!(F.contains x.1)) = true
  rw [hx, h]
  rfl

theorem lookupA_filter_contains_neg {α : Type} (m : List (String × α)) (F : List String)
    (p : String) (h : F.contains p = true) :
    lookupA (m.filter (fun pr => !(F.contains pr.1))) p = none := by
  apply lookupA_filter_none
  intro x hx
  show (!(F.contains x.1)) = false
  rw [hx, h]
  rfl

theorem detectAllChanges_unfold (hash : String → String) (cfg : SyncConfig)
    (mdRoot : String) (lf : List (String × String)) (sb : List Document) (st : State) :
    detectAllChanges hash cfg mdRoot lf sb st =
      detectOrphans lf sb st
        ((EnabledMappings cfg).foldl
          (fun plan mapping => detectChangesForMapping hash st mdRoot lf sb mapping plan)
          NewPlan) := rfl

/-- Claim C7 (amended): with no intervening mutation of either store,
re-running change detection from the state the first run returned (the only
State mutation detection itself makes) reproduces the first run exactly —
the same state and the same plan, item for item — rather than producing an
empty plan: after one run detection is at a fixpoint, and a nonempty plan
recurs identically. -/
theorem detection_rerun_fixpoint (hash : String → String) (cfg : SyncConfig)
    (mdRoot : String) (lf : List (String × String)) (sb : List Document)
    (st : State) (hnd : (st.files.map Prod.fst).Nodup) :
    detectAllChanges hash cfg mdRoot lf sb
        (detectAllChanges hash cfg mdRoot lf sb st).1 =
      detectAllChanges hash cfg mdRoot lf sb st := by
  have hDeq : detectAllChanges hash cfg mdRoot lf sb st =
      List.foldl (detectOrphanStep lf sb)
        (st, (EnabledMappings cfg).foldl
          (fun plan mapping => detectChangesForMapping hash st mdRoot lf sb mapping plan)
          NewPlan)
        (st.files.map Prod.fst) := rfl
  have hrun2 : detectAllChanges hash cfg mdRoot lf sb
      (detectAllChanges hash cfg mdRoot lf sb st).1 =
      List.foldl (detectOrphanStep lf sb)
        ((detectAllChanges hash cfg mdRoot lf sb st).1,
         (EnabledMappings cfg).foldl
           (fun plan mapping => detectChangesForMapping hash
             (detectAllChanges hash cfg mdRoot lf sb st).1 mdRoot lf sb mapping plan)
           NewPlan)
        ((detectAllChanges hash cfg mdRoot lf sb st).1.files.map Prod.fst) := rfl
  set P1 := (EnabledMappings cfg).foldl
    (fun plan mapping => detectChangesForMapping hash st mdRoot lf sb mapping plan)
    NewPlan with hP1
  have hag1 : ∀ pr ∈ st.files, lookupA st.files pr.1 = some pr.2 :=
    fun pr h => nodup_lookupA_self st.files hnd pr h
  obtain ⟨i1, i2, i3, i4⟩ := detectOrphans_fold_spec lf sb st.files st P1 hag1 hnd
  rw [← hDeq] at i1 i2 i3 i4
  have hFmem : ∀ p : String,
      (((st.files.filter (fun pr => !(orphanKeep lf sb pr))).map Prod.fst).contains p) = true ↔
      ∃ pr, pr ∈ st.files ∧ pr.1 = p ∧ orphanKeep lf sb pr = false := by
    intro p
    constructor
    · intro h
      have hmem : p ∈ (st.files.filter (fun pr => !(orphanKeep lf sb pr))).map Prod.fst := by
        simpa using h
      rcases List.mem_map.mp hmem with ⟨pr, hpr, hp⟩
      rcases List.mem_filter.mp hpr with ⟨hpr1, hpr2⟩
      refine ⟨pr, hpr1, hp, ?_⟩
      have hpr3 : (!(orphanKeep lf sb pr)) = true := hpr2
      simpa using hpr3
    · rintro ⟨pr, hpr, hpe, hk⟩
      have hmem1 : pr ∈ st.files.filter (fun pr' => !(orphanKeep lf sb pr')) :=
        List.mem_filter.mpr ⟨hpr, by simp [hk]⟩
      have hmem2 : pr.1 ∈ (st.files.filter (fun pr' => !(orphanKeep lf sb pr'))).map Prod.fst :=
        List.mem_map_of_mem Prod.fst hmem1
      rw [← hpe]
      simpa using hmem2
  have huniq : ∀ (p : String) (fs : FileState), lookupA st.files p = some fs →
      ∀ pr ∈ st.files, pr.1 = p → pr = (p, fs) := by
    intro p fs hlp pr hpr hpe
    have h3 := nodup_lookupA_self st.files hnd pr hpr
    rw [hpe, hlp] at h3
    exact Prod.ext hpe (by injection h3 with h5; exact h5.symm)
  have hWall : ∀ p : String,
      (detectAllChanges hash cfg mdRoot lf sb st).1.WasPreviouslySynced p =
        st.WasPreviouslySynced p := by
    intro p
    unfold State.WasPreviouslySynced
    cases hlp : lookupA st.files p with
    | none =>
        have h1 : lookupA (detectAllChanges hash cfg mdRoot lf sb st).1.files p = none := by
          rw [i2]
          exact lookupA_filter_of_none _ _ _ hlp
        have h2 : lookupA (detectAllChanges hash cfg mdRoot lf sb st).1.deletedFiles p =
            lookupA st.deletedFiles p := by
          apply i3
          intro pr hpr hpe
          have h3 := lookupA_isSome_of_mem_keys st.files p
            (hpe ▸ List.mem_map_of_mem Prod.fst hpr)
          rw [hlp] at h3
          cases h3
        rw [h1, h2]
    | some fs =>
        by_cases hk : orphanKeep lf sb (p, fs) = true
        · have hnc : (((st.files.filter (fun pr => !(orphanKeep lf sb pr))).map
              Prod.fst).contains p) = false := by
            by_contra hcc
            have hc2 : (((st.files.filter (fun pr => !(orphanKeep lf sb pr))).map
                Prod.fst).contains p) = true := by simpa using hcc
            rcases (hFmem p).mp hc2 with ⟨pr, hpr, hpe, hk2⟩
            rw [huniq p fs hlp pr hpr hpe] at hk2
            rw [hk2] at hk
            cases hk
          have h1 : lookupA (detectAllChanges hash cfg mdRoot lf sb st).1.files p =
              lookupA st.files p := by
            rw [i2]
            exact lookupA_filter_contains_pos _ _ _ hnc
          have h2 : lookupA (detectAllChanges hash cfg mdRoot lf sb st).1.deletedFiles p =
              lookupA st.deletedFiles p := by
            apply i3
            intro pr hpr hpe
            rw [huniq p fs hlp pr hpr hpe]
            exact hk
          rw [h1, h2, hlp]
        · have hk2 : orphanKeep lf sb (p, fs) = false := by simpa using hk
          have hc2 : (((st.files.filter (fun pr => !(orphanKeep lf sb pr))).map
              Prod.fst).contains p) = true :=
            (hFmem p).mpr ⟨(p, fs), lookupA_mem_pair _ _ _ hlp, rfl, hk2⟩
          have h1 : lookupA (detectAllChanges hash cfg mdRoot lf sb st).1.files p = none := by
            rw [i2]
            exact lookupA_filter_contains_neg _ _ _ hc2
          have h2 : lookupA (detectAllChanges hash cfg mdRoot lf sb st).1.deletedFiles p =
              some fs :=
            i4 (p, fs) (lookupA_mem_pair _ _ _ hlp) hk2
          rw [h1, h2]
          simp
  have hGDall : ∀ p : String, fileExists lf p = true →
      (detectAllChanges hash cfg mdRoot lf sb st).1.GetFileState p = st.GetFileState p ∧
      (detectAllChanges hash cfg mdRoot lf sb st).1.GetDeletedFileState p =
        st.GetDeletedFileState p := by
    intro p hex
    have hnc : (((st.files.filter (fun pr => !(orphanKeep lf sb pr))).map
        Prod.fst).contains p) = false := by
      by_contra hcc
      have hc2 : (((st.files.filter (fun pr => !(orphanKeep lf sb pr))).map
          Prod.fst).contains p) = true := by simpa using hcc
      rcases (hFmem p).mp hc2 with ⟨pr, hpr, hpe, hk2⟩
      have hkt : orphanKeep lf sb pr = true := by
        unfold orphanKeep
        rw [hpe, hex]
        rfl
      rw [hkt] at hk2
      cases hk2
    constructor
    · show lookupA (detectAllChanges hash cfg mdRoot lf sb st).1.files p = lookupA st.files p
      rw [i2]
      exact lookupA_filter_contains_pos _ _ _ hnc
    · show lookupA (detectAllChanges hash cfg mdRoot lf sb st).1.deletedFiles p =
        lookupA st.deletedFiles p
      apply i3
      intro pr hpr hpe
      unfold orphanKeep
      rw [hpe, hex]
      rfl
  have hkeepAll : ∀ pr ∈ (detectAllChanges hash cfg mdRoot lf sb st).1.files,
      orphanKeep lf sb pr = true := by
    intro pr hpr
    rw [i2] at hpr
    rcases List.mem_filter.mp hpr with ⟨hmem, hpred⟩
    by_contra hkc
    have hk2 : orphanKeep lf sb pr = false := by simpa using hkc
    have hc2 : (((st.files.filter (fun pr' => !(orphanKeep lf sb pr'))).map
        Prod.fst).contains pr.1) = true :=
      (hFmem pr.1).mpr ⟨pr, hmem, rfl, hk2⟩
    have hpred2 : (!(((st.files.filter (fun pr' => !(orphanKeep lf sb pr'))).map
        Prod.fst).contains pr.1)) = true := hpred
    rw [hc2] at hpred2
    cases hpred2
  have hnd2 : ((detectAllChanges hash cfg mdRoot lf sb st).1.files.map Prod.fst).Nodup := by
    rw [i2]
    exact List.Nodup.sublist (List.Sublist.map Prod.fst (List.filter_sublist st.files)) hnd
  have hag2 : ∀ pr ∈ (detectAllChanges hash cfg mdRoot lf sb st).1.files,
      lookupA (detectAllChanges hash cfg mdRoot lf sb st).1.files pr.1 = some pr.2 :=
    fun pr h => nodup_lookupA_self _ hnd2 pr h
  have hfm : (detectAllChanges hash cfg mdRoot lf sb st).1.files.filterMap
      (orphanItemFor lf sb) = st.files.filterMap (orphanItemFor lf sb) := by
    rw [i2]
    apply filterMap_filter_eq
    intro pr hpr hpred
    have hpred2 : (!(((st.files.filter (fun pr' => !(orphanKeep lf sb pr'))).map
        Prod.fst).contains pr.1)) = false := hpred
    have hc2 : (((st.files.filter (fun pr' => !(orphanKeep lf sb pr'))).map
        Prod.fst).contains pr.1) = true := by simpa using hpred2
    rcases (hFmem pr.1).mp hc2 with ⟨pr', hpr', hpe, hk2⟩
    have h3 := nodup_lookupA_self st.files hnd pr' hpr'
    have h4 := nodup_lookupA_self st.files hnd pr hpr
    rw [hpe] at h3
    rw [h3] at h4
    have h5 : pr' = pr := Prod.ext hpe (by injection h4 with h6)
    rw [← h5]
    exact orphanItemFor_none_of_not_keep lf sb pr' hk2
  obtain ⟨j1, _, _, _⟩ := detectOrphans_fold_spec lf sb
    (detectAllChanges hash cfg mdRoot lf sb st).1.files
    (detectAllChanges hash cfg mdRoot lf sb st).1 P1 hag2 hnd2
  have hst2 : (List.foldl (detectOrphanStep lf sb)
      ((detectAllChanges hash cfg mdRoot lf sb st).1, P1)
      ((detectAllChanges hash cfg mdRoot lf sb st).1.files.map Prod.fst)).1 =
      (detectAllChanges hash cfg mdRoot lf sb st).1 :=
    detectOrphans_no_removal lf sb (detectAllChanges hash cfg mdRoot lf sb st).1.files
      (detectAllChanges hash cfg mdRoot lf sb st).1 P1 hag2 hkeepAll
  have hP : (EnabledMappings cfg).foldl
      (fun plan mapping => detectChangesForMapping hash
        (detectAllChanges hash cfg mdRoot lf sb st).1 mdRoot lf sb mapping plan)
      NewPlan = P1 := by
    rw [hP1]
    exact mappingFold_congr hash st (detectAllChanges hash cfg mdRoot lf sb st).1
      mdRoot lf sb hWall hGDall (EnabledMappings cfg) NewPlan
  rw [hrun2, hP]
  refine Prod.ext ?_ ?_
  · exact hst2
  · rw [j1, hfm]
    exact i1.symm

/-- Counterexample to C7: a never-synced local markdown file with no
Scrivener counterpart is queued as a create by the first detection run and,
the stores and the returned state being unchanged, is queued again by the
second run — the second plan is not empty. -/
theorem detection_rerun_counterexample :
    (detectAllChanges (fun s => s) cfgC7 "root" [("root/d/a.md", "hello")] []
        ((detectAllChanges (fun s => s) cfgC7 "root" [("root/d/a.md", "hello")] []
          NewState).1)).2.IsEmpty = false := by
  have hmap0 : buildScrivDocMap (scrivFolderDocs [] mapC8) =
      ([] : List (String × Document)) := by
    rw [scrivFolderDocs_nil]
    rfl
  have hdet : detectChangesForMapping (fun s => s) NewState "root"
      [("root/d/a.md", "hello")] [] mapC8 NewPlan =
      NewPlan.AddCreateInScriv "root/d/a.md"
        (titleFromFilename (baseName "root/d/a.md")) "hello" := by
    rw [detectChangesForMapping_unfold, hmap0]
    rfl
  have hall : detectAllChanges (fun s => s) cfgC7 "root" [("root/d/a.md", "hello")] []
      NewState =
      (NewState, NewPlan.AddCreateInScriv "root/d/a.md"
        (titleFromFilename (baseName "root/d/a.md")) "hello") := by
    rw [detectAllChanges_unfold,
      show EnabledMappings cfgC7 = [mapC8] from rfl,
      List.foldl_cons, List.foldl_nil, hdet]
    rfl
  rw [show (detectAllChanges (fun s => s) cfgC7 "root" [("root/d/a.md", "hello")] []
        NewState).1 = NewState by rw [hall]]
  rw [hall]
  rfl

/-- Witness for C7 (amended): the fixpoint equation on a concrete
configuration with a duplicate-free tracking map. -/
theorem detection_rerun_fixpoint_witness :
    (NewState.files.map Prod.fst).Nodup ∧
    detectAllChanges (fun s => s) cfgC7 "root" [("root/d/a.md", "hello")] []
        ((detectAllChanges (fun s => s) cfgC7 "root" [("root/d/a.md", "hello")] []
          NewState).1) =
      detectAllChanges (fun s => s) cfgC7 "root" [("root/d/a.md", "hello")] [] NewState :=
  ⟨by decide,
   detection_rerun_fixpoint (fun s => s) cfgC7 "root" [("root/d/a.md", "hello")] []
     NewState (by decide)⟩
